import Mathlib

/-!
Shallow embedding of `src/src/target/riscv/program.c` (riscv-openocd
program-buffer micro-assembler) together with proofs about its
specification.  The instruction encoders of `asm.h`/`encoding.h` are
external pure functions; they are represented by an injective inductive
type of instruction words.  Process termination (`abort()`) is modelled
by `Except.error` carrying the reason; the C `int` error codes that a
function can actually `return` are carried in the `.ok` payload.
-/

namespace RiscvProgram

/-- OpenOCD success code (from the surrounding helper headers). -/
def ERROR_OK : Int := 0

/-- OpenOCD generic failure code (from the surrounding helper headers). -/
def ERROR_FAIL : Int := -4

/-- Modelled from the spec: GDB register numbering for the general-purpose
registers X0..X31; `gdb_regno` values come from headers outside `src/`.
The spec (§3) indexes the per-register arrays over X0–X31 and names S0
(x8) as the first scratch-eligible register. -/
def GDB_REGNO_XPR0 : Nat := 0

/-- Last general-purpose register index (x31). -/
def GDB_REGNO_XPR31 : Nat := 31

/-- The always-zero register x0 (same index as `GDB_REGNO_XPR0`). -/
def GDB_REGNO_X0 : Nat := 0

/-- Modelled from the spec: scratch allocation starts at S0 = x8. -/
def GDB_REGNO_S0 : Nat := 8

/-- Modelled from the spec: the per-register flag arrays cover X0..X31
(spec §3: "Indexed over all addressable registers (general-purpose
X0–X31 ...)"). -/
def RISCV_REGISTER_COUNT : Nat := 32

/-- Encoded instruction words.  The C encoders (`lw(d,b,off)`, ...) are
external pure injective functions into 32-bit words; we keep them
symbolic. `raw` stands for an arbitrary word read back from the target. -/
inductive Insn where
  | lw (rd rb : Nat) (off : Int)
  | lh (rd rb : Nat) (off : Int)
  | lb (rd rb : Nat) (off : Int)
  | ld (rd rb : Nat) (off : Int)
  | sw (rs rb : Nat) (off : Int)
  | sh (rs rb : Nat) (off : Int)
  | sb (rs rb : Nat) (off : Int)
  | sd (rs rb : Nat) (off : Int)
  | lui (rd : Nat) (imm : Int)
  | addi (rd rs : Nat) (imm : Int)
  | fence
  | fence_i
  | ebreak
  | raw (w : Int)
deriving DecidableEq, Repr

/-- Reasons for process termination (`abort()` / failed `assert`). -/
inductive Fatal where
  | insert_overflow
  | temp_exhausted
  | xlen_unknown
  | fence_branch
  | ebreak_branch
  | assert_failed
deriving DecidableEq, Repr

/-- The `struct riscv_program` state.  `capacity` is the target-reported
`riscv_debug_buffer_size(p->target)` and `target_xlen` the target's
register width, both fixed at init.  The C struct stores
`instruction_count` next to a fixed-size `debug_buffer` array whose
slots past `instruction_count` only ever hold the init sentinel; the
embedding keeps the filled prefix as a list, so the count is its
length. -/
structure Program where
  capacity : Nat
  target_xlen : Nat
  debug_buffer : List Insn
  writes_memory : Bool
  writes_xreg : Nat → Bool
  in_use : Nat → Bool

/-- Embeds `p->instruction_count`. -/
def Program.instruction_count (p : Program) : Nat := p.debug_buffer.length

/-- Pointwise update of a C flag array. -/
def setFlag (f : Nat → Bool) (i : Nat) (b : Bool) : Nat → Bool :=
  fun j => if j = i then b else f j

/-- Embeds `riscv_program_init`: zero the state; capacity and xlen are the
target queries made at init time. -/
def riscv_program_init (capacity xlen : Nat) : Program :=
  { capacity := capacity
    target_xlen := xlen
    debug_buffer := []
    writes_memory := false
    writes_xreg := fun _ => false
    in_use := fun _ => false }

/-- Embeds `riscv_program_insert`: fatal when the buffer is full, else append
the word at index `instruction_count` and bump the count. -/
def riscv_program_insert (p : Program) (i : Insn) : Except Fatal (Int × Program) :=
  if p.instruction_count ≥ p.capacity then
    .error .insert_overflow
  else
    .ok (ERROR_OK, { p with debug_buffer := p.debug_buffer ++ [i] })

/-- Embeds `riscv_program_gah`: arithmetic right shift of the signed address. -/
def riscv_program_gah (_p : Program) (addr : Int) : Int := addr >>> 12

/-- Embeds `riscv_program_gal`: low bitfield for positive addresses, else 0. -/
def riscv_program_gal (_p : Program) (addr : Int) : Int :=
  if addr > 0 then Int.land addr 0x7FF else 0

/-- Embeds `riscv_program_lui`: emit a load-upper-immediate. -/
def riscv_program_lui (p : Program) (d : Nat) (u : Int) : Except Fatal (Int × Program) :=
  riscv_program_insert p (.lui d u)

/-- Embeds `riscv_program_addi`: emit an add-immediate. -/
def riscv_program_addi (p : Program) (d s : Nat) (u : Int) : Except Fatal (Int × Program) :=
  riscv_program_insert p (.addi d s u)

/-- Embeds `riscv_program_lah`: emit nothing when the upper immediate is zero,
else a `lui` of it into `d`. -/
def riscv_program_lah (p : Program) (d : Nat) (addr : Int) : Except Fatal (Int × Program) :=
  if riscv_program_gah p addr = 0 then
    .ok (ERROR_OK, p)
  else
    riscv_program_lui p d (riscv_program_gah p addr)

/-- Embeds `riscv_program_lal`: emit nothing when the low offset is zero, else
an `addi` of it. -/
def riscv_program_lal (p : Program) (d : Nat) (addr : Int) : Except Fatal (Int × Program) :=
  if riscv_program_gal p addr = 0 then
    .ok (ERROR_OK, p)
  else
    riscv_program_addi p d d (riscv_program_gal p addr)

/-- Embeds `riscv_program_li`: unconditional `lui` then `addi` pair. -/
def riscv_program_li (p : Program) (d : Nat) (c : Int) : Except Fatal (Int × Program) :=
  match riscv_program_lui p d (c >>> 12) with
  | .error f => .error f
  | .ok (r1, p1) =>
    if r1 ≠ ERROR_OK then .ok (ERROR_FAIL, p1)
    else
      match riscv_program_addi p1 d d (Int.land c 0xFFF) with
      | .error f => .error f
      | .ok (r2, p2) =>
        if r2 ≠ ERROR_OK then .ok (ERROR_FAIL, p2) else .ok (ERROR_OK, p2)

/-- Embeds `riscv_program_swr`: register-offset store word; sets the
`writes_memory` flag then inserts. -/
def riscv_program_swr (p : Program) (d b : Nat) (off : Int) : Except Fatal (Int × Program) :=
  riscv_program_insert { p with writes_memory := true } (.sw d b off)

/-- Embeds `riscv_program_shr`: register-offset store half. -/
def riscv_program_shr (p : Program) (d b : Nat) (off : Int) : Except Fatal (Int × Program) :=
  riscv_program_insert { p with writes_memory := true } (.sh d b off)

/-- Embeds `riscv_program_sbr`: register-offset store byte. -/
def riscv_program_sbr (p : Program) (d b : Nat) (off : Int) : Except Fatal (Int × Program) :=
  riscv_program_insert { p with writes_memory := true } (.sb d b off)

/-- Embeds `riscv_program_lwr`: register-offset load word.  Note: the C code
sets `p->writes_memory = 1` here exactly as the stores above do. -/
def riscv_program_lwr (p : Program) (d b : Nat) (off : Int) : Except Fatal (Int × Program) :=
  riscv_program_insert { p with writes_memory := true } (.lw d b off)

/-- Embeds `riscv_program_lhr`: register-offset load half (also sets
`writes_memory` in the C code). -/
def riscv_program_lhr (p : Program) (d b : Nat) (off : Int) : Except Fatal (Int × Program) :=
  riscv_program_insert { p with writes_memory := true } (.lh d b off)

/-- Embeds `riscv_program_lbr`: register-offset load byte (also sets
`writes_memory` in the C code). -/
def riscv_program_lbr (p : Program) (d b : Nat) (off : Int) : Except Fatal (Int × Program) :=
  riscv_program_insert { p with writes_memory := true } (.lb d b off)

/-- Embeds `riscv_program_do_restore_register`: `assert(r < RISCV_REGISTER_COUNT)`
then mark `r` dirtied. -/
def riscv_program_do_restore_register (p : Program) (r : Nat) : Except Fatal (Int × Program) :=
  if r < RISCV_REGISTER_COUNT then
    .ok (ERROR_OK, { p with writes_xreg := setFlag p.writes_xreg r true })
  else
    .error .assert_failed

/-- Embeds `riscv_program_dont_restore_register`: `assert` then clear the
dirtied flag of `r` (does not touch `in_use`). -/
def riscv_program_dont_restore_register (p : Program) (r : Nat) : Except Fatal (Int × Program) :=
  if r < RISCV_REGISTER_COUNT then
    .ok (ERROR_OK, { p with writes_xreg := setFlag p.writes_xreg r false })
  else
    .error .assert_failed

/-- Embeds `riscv_program_gettemp`: scan S0..X31 for the first register not
`in_use`; mark it dirtied (via `riscv_program_do_restore_register`,
whose assert holds since the index is ≤ 31) and `in_use`; `abort()`
when every scratch register is taken. -/
def riscv_program_gettemp (p : Program) : Except Fatal (Nat × Program) :=
  match (List.range' GDB_REGNO_S0 (GDB_REGNO_XPR31 + 1 - GDB_REGNO_S0)).find?
      (fun i => !p.in_use i) with
  | some i =>
    .ok (i, { p with writes_xreg := setFlag p.writes_xreg i true
                     in_use := setFlag p.in_use i true })
  | none => .error .temp_exhausted

/-- Embeds `riscv_program_puttemp`: `assert` then clear `in_use` for `r`
(leaves `writes_xreg` alone). -/
def riscv_program_puttemp (p : Program) (r : Nat) : Except Fatal Program :=
  if r < RISCV_REGISTER_COUNT then
    .ok { p with in_use := setFlag p.in_use r false }
  else
    .error .assert_failed

/-- Embeds `riscv_program_ld`: base register is X0 when the upper immediate is
zero, else the destination `d`; `lah` is called with `d`. -/
def riscv_program_ld (p : Program) (d : Nat) (addr : Int) : Except Fatal (Int × Program) :=
  let t := if riscv_program_gah p addr = 0 then GDB_REGNO_X0 else d
  match riscv_program_lah p d addr with
  | .error f => .error f
  | .ok (r1, p1) =>
    if r1 ≠ ERROR_OK then .ok (ERROR_FAIL, p1)
    else
      match riscv_program_insert p1 (.ld d t (riscv_program_gal p1 addr)) with
      | .error f => .error f
      | .ok (r2, p2) =>
        if r2 ≠ ERROR_OK then .ok (ERROR_FAIL, p2) else .ok (ERROR_OK, p2)

/-- Embeds `riscv_program_lw` (address-relative load word macro). -/
def riscv_program_lw (p : Program) (d : Nat) (addr : Int) : Except Fatal (Int × Program) :=
  let t := if riscv_program_gah p addr = 0 then GDB_REGNO_X0 else d
  match riscv_program_lah p d addr with
  | .error f => .error f
  | .ok (r1, p1) =>
    if r1 ≠ ERROR_OK then .ok (ERROR_FAIL, p1)
    else
      match riscv_program_insert p1 (.lw d t (riscv_program_gal p1 addr)) with
      | .error f => .error f
      | .ok (r2, p2) =>
        if r2 ≠ ERROR_OK then .ok (ERROR_FAIL, p2) else .ok (ERROR_OK, p2)

/-- Embeds `riscv_program_lh` (address-relative load half macro). -/
def riscv_program_lh (p : Program) (d : Nat) (addr : Int) : Except Fatal (Int × Program) :=
  let t := if riscv_program_gah p addr = 0 then GDB_REGNO_X0 else d
  match riscv_program_lah p d addr with
  | .error f => .error f
  | .ok (r1, p1) =>
    if r1 ≠ ERROR_OK then .ok (ERROR_FAIL, p1)
    else
      match riscv_program_insert p1 (.lh d t (riscv_program_gal p1 addr)) with
      | .error f => .error f
      | .ok (r2, p2) =>
        if r2 ≠ ERROR_OK then .ok (ERROR_FAIL, p2) else .ok (ERROR_OK, p2)

/-- Embeds `riscv_program_lb` (address-relative load byte macro).  Unlike its
siblings it passes the computed base `t` — not `d` — to
`riscv_program_lah`. -/
def riscv_program_lb (p : Program) (d : Nat) (addr : Int) : Except Fatal (Int × Program) :=
  let t := if riscv_program_gah p addr = 0 then GDB_REGNO_X0 else d
  match riscv_program_lah p t addr with
  | .error f => .error f
  | .ok (r1, p1) =>
    if r1 ≠ ERROR_OK then .ok (ERROR_FAIL, p1)
    else
      match riscv_program_insert p1 (.lb d t (riscv_program_gal p1 addr)) with
      | .error f => .error f
      | .ok (r2, p2) =>
        if r2 ≠ ERROR_OK then .ok (ERROR_FAIL, p2) else .ok (ERROR_OK, p2)

/-- Embeds `riscv_program_lx`: width dispatch on the target xlen. -/
def riscv_program_lx (p : Program) (d : Nat) (addr : Int) : Except Fatal (Int × Program) :=
  if p.target_xlen = 64 then riscv_program_ld p d addr
  else if p.target_xlen = 32 then riscv_program_lw p d addr
  else .error .xlen_unknown

/-- Embeds `riscv_program_sd`: base register is X0 when the upper immediate is
zero, else a freshly allocated scratch register, released after the
store is emitted; sets `writes_memory`. -/
def riscv_program_sd (p : Program) (d : Nat) (addr : Int) : Except Fatal (Int × Program) :=
  match (if riscv_program_gah p addr = 0
         then Except.ok (GDB_REGNO_X0, p)
         else riscv_program_gettemp p) with
  | .error f => .error f
  | .ok (t, p0) =>
    match riscv_program_lah p0 t addr with
    | .error f => .error f
    | .ok (r1, p1) =>
      if r1 ≠ ERROR_OK then .ok (ERROR_FAIL, p1)
      else
        match riscv_program_insert p1 (.sd d t (riscv_program_gal p1 addr)) with
        | .error f => .error f
        | .ok (r2, p2) =>
          if r2 ≠ ERROR_OK then .ok (ERROR_FAIL, p2)
          else
            match riscv_program_puttemp p2 t with
            | .error f => .error f
            | .ok p3 => .ok (ERROR_OK, { p3 with writes_memory := true })

/-- Embeds `riscv_program_sw` (address-relative store word macro). -/
def riscv_program_sw (p : Program) (d : Nat) (addr : Int) : Except Fatal (Int × Program) :=
  match (if riscv_program_gah p addr = 0
         then Except.ok (GDB_REGNO_X0, p)
         else riscv_program_gettemp p) with
  | .error f => .error f
  | .ok (t, p0) =>
    match riscv_program_lah p0 t addr with
    | .error f => .error f
    | .ok (r1, p1) =>
      if r1 ≠ ERROR_OK then .ok (ERROR_FAIL, p1)
      else
        match riscv_program_insert p1 (.sw d t (riscv_program_gal p1 addr)) with
        | .error f => .error f
        | .ok (r2, p2) =>
          if r2 ≠ ERROR_OK then .ok (ERROR_FAIL, p2)
          else
            match riscv_program_puttemp p2 t with
            | .error f => .error f
            | .ok p3 => .ok (ERROR_OK, { p3 with writes_memory := true })

/-- Embeds `riscv_program_sh` (address-relative store half macro). -/
def riscv_program_sh (p : Program) (d : Nat) (addr : Int) : Except Fatal (Int × Program) :=
  match (if riscv_program_gah p addr = 0
         then Except.ok (GDB_REGNO_X0, p)
         else riscv_program_gettemp p) with
  | .error f => .error f
  | .ok (t, p0) =>
    match riscv_program_lah p0 t addr with
    | .error f => .error f
    | .ok (r1, p1) =>
      if r1 ≠ ERROR_OK then .ok (ERROR_FAIL, p1)
      else
        match riscv_program_insert p1 (.sh d t (riscv_program_gal p1 addr)) with
        | .error f => .error f
        | .ok (r2, p2) =>
          if r2 ≠ ERROR_OK then .ok (ERROR_FAIL, p2)
          else
            match riscv_program_puttemp p2 t with
            | .error f => .error f
            | .ok p3 => .ok (ERROR_OK, { p3 with writes_memory := true })

/-- Embeds `riscv_program_sb` (address-relative store byte macro). -/
def riscv_program_sb (p : Program) (d : Nat) (addr : Int) : Except Fatal (Int × Program) :=
  match (if riscv_program_gah p addr = 0
         then Except.ok (GDB_REGNO_X0, p)
         else riscv_program_gettemp p) with
  | .error f => .error f
  | .ok (t, p0) =>
    match riscv_program_lah p0 t addr with
    | .error f => .error f
    | .ok (r1, p1) =>
      if r1 ≠ ERROR_OK then .ok (ERROR_FAIL, p1)
      else
        match riscv_program_insert p1 (.sb d t (riscv_program_gal p1 addr)) with
        | .error f => .error f
        | .ok (r2, p2) =>
          if r2 ≠ ERROR_OK then .ok (ERROR_FAIL, p2)
          else
            match riscv_program_puttemp p2 t with
            | .error f => .error f
            | .ok p3 => .ok (ERROR_OK, { p3 with writes_memory := true })

/-- Embeds `riscv_program_sx`: width dispatch on the target xlen. -/
def riscv_program_sx (p : Program) (d : Nat) (addr : Int) : Except Fatal (Int × Program) :=
  if p.target_xlen = 64 then riscv_program_sd p d addr
  else if p.target_xlen = 32 then riscv_program_sw p d addr
  else .error .xlen_unknown

/-- Embeds `riscv_program_fence_i`. -/
def riscv_program_fence_i (p : Program) : Except Fatal (Int × Program) :=
  riscv_program_insert p .fence_i

/-- Embeds `riscv_program_fence`. -/
def riscv_program_fence (p : Program) : Except Fatal (Int × Program) :=
  riscv_program_insert p .fence

/-- Embeds `riscv_program_ebreak`: when the buffer is exactly full the target's
implicit ebreak is relied upon, else an explicit one is inserted. -/
def riscv_program_ebreak (p : Program) : Except Fatal (Int × Program) :=
  if p.instruction_count = p.capacity then
    .ok (ERROR_OK, p)
  else
    riscv_program_insert p .ebreak

/-- Observable interactions with the target/transport collaborator. -/
inductive Event where
  | get_reg (i : Nat)
  | set_reg (i : Nat) (v : Int)
  | write_buf (i : Nat) (w : Insn)
  | exec_buf
  | read_buf (i : Nat)
deriving DecidableEq, Repr

/-- The external collaborators of `riscv_program_exec`: register reads,
per-slot success of `riscv_write_debug_buffer`, success of
`riscv_execute_debug_buffer`, words returned by
`riscv_read_debug_buffer`, and `junk`, the value found in an
uninitialized `saved_registers` stack slot. -/
structure Env where
  get_register : Nat → Int
  write_ok : Nat → Bool
  execute_ok : Bool
  read_debug : Nat → Int
  junk : Int

/-- The `saved_registers` array after the save loop of
`riscv_program_exec`: slots X1..X31 of dirtied registers hold the
target's pre-execution value, every other slot is uninitialized. -/
def savedRegisters (p : Program) (env : Env) : Nat → Int :=
  fun i =>
    if GDB_REGNO_XPR0 + 1 ≤ i ∧ i ≤ GDB_REGNO_XPR31 ∧ p.writes_xreg i then
      env.get_register i
    else env.junk

/-- Register reads performed by the save loop (indices
`GDB_REGNO_XPR0 + 1 .. GDB_REGNO_XPR31`, dirtied only, ascending). -/
def saveEvents (p : Program) : List Event :=
  ((List.range' (GDB_REGNO_XPR0 + 1) GDB_REGNO_XPR31).filter p.writes_xreg).map .get_reg

/-- Register writes performed by the restore loop (indices
`GDB_REGNO_XPR0 .. GDB_REGNO_XPR31`, dirtied only, ascending, values
from `saved_registers`). -/
def restoreEvents (p : Program) (env : Env) : List Event :=
  ((List.range (GDB_REGNO_XPR31 + 1)).filter p.writes_xreg).map
    (fun i => .set_reg i (savedRegisters p env i))

/-- The loop body of `riscv_program_write`, from slot `i` on: stop with
`ERROR_FAIL` at the first failing `riscv_write_debug_buffer`. -/
def writeLoop (env : Env) : Nat → List Insn → Int × List Event
  | _, [] => (ERROR_OK, [])
  | i, w :: ws =>
    if env.write_ok i then
      let r := writeLoop env (i + 1) ws
      (r.1, .write_buf i w :: r.2)
    else (ERROR_FAIL, [.write_buf i w])

/-- Embeds `riscv_program_write`: transfer slots `0 .. instruction_count - 1`. -/
def riscv_program_write (p : Program) (env : Env) : Int × List Event :=
  writeLoop env 0 p.debug_buffer

/-- The read-back loop body of `riscv_program_exec` overwrites slot `i`
with the word read from the target, for each `i` in the given index
list. -/
def readbackFold (env : Env) (buf : List Insn) (idx : List Nat) : List Insn :=
  idx.foldl (fun b i => b.set i (.raw (env.read_debug i))) buf

/-- Embeds `riscv_program_exec`: save dirtied registers (X1..X31), fence when
the program writes memory, append the terminating ebreak, transfer the
buffer, trigger execution, run the read-back loop (whose guard
`i >= riscv_debug_buffer_size` sits inside a loop bounded by
`i < riscv_debug_buffer_size`), and restore dirtied registers
(X0..X31) from `saved_registers`.  The fence/ebreak "failure" branches
call `abort()` and are modelled as distinct fatal reasons. -/
def riscv_program_exec (p : Program) (env : Env) : Except Fatal (Int × Program × List Event) :=
  let evs0 := saveEvents p
  match (if p.writes_memory then riscv_program_fence p else .ok (ERROR_OK, p)) with
  | .error f => .error f
  | .ok (rf, p1) =>
    if rf ≠ ERROR_OK then .error .fence_branch
    else
      match riscv_program_ebreak p1 with
      | .error f => .error f
      | .ok (re, p2) =>
        if re ≠ ERROR_OK then .error .ebreak_branch
        else
          let w := riscv_program_write p2 env
          if w.1 ≠ ERROR_OK then .ok (ERROR_FAIL, p2, evs0 ++ w.2)
          else if !env.execute_ok then .ok (ERROR_FAIL, p2, evs0 ++ w.2 ++ [.exec_buf])
          else
            let readIdx := (List.range p2.capacity).filter (fun i => p2.capacity ≤ i)
            let p3 := { p2 with debug_buffer := readbackFold env p2.debug_buffer readIdx }
            .ok (ERROR_OK, p3,
              evs0 ++ w.2 ++ [.exec_buf] ++ readIdx.map .read_buf ++ restoreEvents p3 env)

/-- Iterated `riscv_program_insert` (a caller emitting one instruction
per call). -/
def insertList (p : Program) : List Insn → Except Fatal Program
  | [] => .ok p
  | i :: is =>
    match riscv_program_insert p i with
    | .error f => .error f
    | .ok (_, p') => insertList p' is

/-- The emitter result can only carry `ERROR_OK` when it returns at all
(`.error` stands for `abort()`). -/
def OkOnly (e : Except Fatal (Int × Program)) : Prop :=
  ∀ r q, e = .ok (r, q) → r = ERROR_OK

/-- Allocation invariant: a register currently `in_use` is marked for
restoration. -/
def InUseDirtied (p : Program) : Prop :=
  ∀ r, p.in_use r = true → p.writes_xreg r = true

/-- Specification shape for `riscv_program_lb`: the code shape shared
by `riscv_program_ld`/`lw`/`lh`, which pass the destination `d` (rather
than the computed base `t`) to `riscv_program_lah`, instantiated with
the `lb` encoder. -/
def riscv_program_lb_sibling (p : Program) (d : Nat) (addr : Int) : Except Fatal (Int × Program) :=
  let t := if riscv_program_gah p addr = 0 then GDB_REGNO_X0 else d
  match riscv_program_lah p d addr with
  | .error f => .error f
  | .ok (r1, p1) =>
    if r1 ≠ ERROR_OK then .ok (ERROR_FAIL, p1)
    else
      match riscv_program_insert p1 (.lb d t (riscv_program_gal p1 addr)) with
      | .error f => .error f
      | .ok (r2, p2) =>
        if r2 ≠ ERROR_OK then .ok (ERROR_FAIL, p2) else .ok (ERROR_OK, p2)

/-- A benign environment: all transport operations succeed, all
registers read 0, uninitialized stack memory holds 1. -/
def env0 : Env :=
  { get_register := fun _ => 0
    write_ok := fun _ => true
    execute_ok := true
    read_debug := fun _ => 0
    junk := 1 }

/-- A program whose only dirtied register is X0 (reachable through
`riscv_program_do_restore_register` on a fresh program). -/
def progX0dirty : Program :=
  { riscv_program_init 4 32 with
      writes_xreg := setFlag (riscv_program_init 4 32).writes_xreg GDB_REGNO_X0 true }

/-- A program whose only dirtied register is x5 (reachable through
`riscv_program_do_restore_register` on a fresh program). -/
def progDirty5 : Program :=
  { riscv_program_init 4 32 with
      writes_xreg := setFlag (riscv_program_init 4 32).writes_xreg 5 true }

/-! ### Helper lemmas -/

lemma error_fail_ne_ok : ERROR_FAIL ≠ ERROR_OK := by decide

lemma nat_land_mask (m : Nat) : m &&& 2047 = m % 2048 := by
  apply Nat.eq_of_testBit_eq
  intro i
  rw [Nat.testBit_and]
  have h1 : (2047 : Nat) = 2 ^ 11 - 1 := by norm_num
  have h2 : (2048 : Nat) = 2 ^ 11 := by norm_num
  rw [h1, h2, Nat.testBit_two_pow_sub_one, Nat.testBit_mod_two_pow]
  cases m.testBit i <;> simp

lemma int_shiftRight_twelve (a : Int) : a >>> (12 : Int) = a / 4096 := by
  have hnat : ∀ m : Nat, m >>> 12 = m / 4096 := by
    intro m
    rw [Nat.shiftRight_eq_div_pow]
  cases a with
  | ofNat m =>
    exact (Int.shiftRight_coe_nat m 12).trans (by rw [hnat m]; rfl)
  | negSucc m =>
    exact (Int.shiftRight_negSucc m 12).trans (by rw [hnat m]; rfl)

lemma int_land_mask (a : Int) (h : 0 ≤ a) : Int.land a 2047 = a % 2048 := by
  obtain ⟨m, rfl⟩ := Int.eq_ofNat_of_zero_le h
  show Int.ofNat (m &&& 2047) = Int.ofNat m % 2048
  rw [nat_land_mask m]
  rfl

lemma gah_eq_zero_iff (p : Program) (a : Int) :
    riscv_program_gah p a = 0 ↔ 0 ≤ a ∧ a < 4096 := by
  unfold riscv_program_gah
  rw [int_shiftRight_twelve]
  constructor
  · intro h
    by_contra hc
    rcases lt_or_le a 0 with hneg | hpos
    · have : a / 4096 < 0 := Int.ediv_neg' hneg (by norm_num)
      omega
    · have h4096 : (4096 : Int) ≤ a := by
        rcases lt_or_le a 4096 with h1 | h2
        · exact absurd ⟨hpos, h1⟩ hc
        · exact h2
      have : (1 : Int) ≤ a / 4096 := by
        rw [Int.le_ediv_iff_mul_le (by norm_num : (0:Int) < 4096)]
        omega
      omega
  · rintro ⟨h0, h1⟩
    exact Int.ediv_eq_zero_of_lt h0 h1

lemma insert_ok_iff (p : Program) (i : Insn) (r : Int) (p' : Program) :
    riscv_program_insert p i = .ok (r, p') ↔
      p.instruction_count < p.capacity ∧ r = ERROR_OK ∧
        p' = { p with debug_buffer := p.debug_buffer ++ [i] } := by
  unfold riscv_program_insert
  split
  · next hge =>
    simp only [ge_iff_le] at hge
    constructor
    · intro h
      exact absurd h (by simp)
    · rintro ⟨hlt, -, -⟩
      omega
  · next hlt =>
    simp only [ge_iff_le, not_le] at hlt
    constructor
    · intro h
      obtain ⟨h1, h2⟩ := Prod.mk.injEq .. ▸ (Except.ok.inj h)
      exact ⟨hlt, h1.symm, h2.symm⟩
    · rintro ⟨-, rfl, rfl⟩
      rfl

lemma insert_error_iff (p : Program) (i : Insn) (f : Fatal) :
    riscv_program_insert p i = .error f ↔
      p.capacity ≤ p.instruction_count ∧ f = .insert_overflow := by
  unfold riscv_program_insert
  split
  · next hge =>
    simp only [ge_iff_le] at hge
    constructor
    · intro h
      exact ⟨hge, (Except.error.inj h).symm⟩
    · rintro ⟨-, rfl⟩
      rfl
  · next hlt =>
    simp only [ge_iff_le, not_le] at hlt
    constructor
    · intro h
      exact absurd h (by simp)
    · rintro ⟨hle, -⟩
      omega

lemma insert_cases (p : Program) (i : Insn) :
    riscv_program_insert p i = .error .insert_overflow ∨
      riscv_program_insert p i =
        .ok (ERROR_OK, { p with debug_buffer := p.debug_buffer ++ [i] }) := by
  unfold riscv_program_insert
  split
  · exact Or.inl rfl
  · exact Or.inr rfl

lemma insertList_ok (ws : List Insn) :
    ∀ p : Program, p.instruction_count + ws.length ≤ p.capacity →
      ∃ p', insertList p ws = .ok p' ∧
        p'.instruction_count = p.instruction_count + ws.length ∧
        p'.capacity = p.capacity := by
  induction ws with
  | nil =>
    intro p _
    exact ⟨p, rfl, by simp, rfl⟩
  | cons i is ih =>
    intro p hle
    simp only [List.length_cons] at hle
    have hlt : p.instruction_count < p.capacity := by omega
    have hins := (insert_ok_iff p i ERROR_OK _).mpr ⟨hlt, rfl, rfl⟩
    have hcount : ({ p with debug_buffer := p.debug_buffer ++ [i] } : Program).instruction_count
        = p.instruction_count + 1 := by
      simp [Program.instruction_count]
    have hcap0 : ({ p with debug_buffer := p.debug_buffer ++ [i] } : Program).capacity
        = p.capacity := rfl
    obtain ⟨p', hrun, hc, hcap⟩ :=
      ih { p with debug_buffer := p.debug_buffer ++ [i] } (by rw [hcount, hcap0]; omega)
    refine ⟨p', ?_, ?_, hcap.trans hcap0⟩
    · unfold insertList
      rw [hins]
      exact hrun
    · rw [hc, hcount]
      simp only [List.length_cons]
      omega

/-- C5: every emission funnels through `riscv_program_insert`, whose
precondition is `instruction_count < capacity`; under it the word is
appended at index `instruction_count` and the count is incremented, so
`instruction_count ≤ capacity` always holds afterwards and a caller can
fill exactly `capacity` slots; at or beyond capacity the emission is
fatal (`abort()` after logging), never silently truncated. -/
theorem C5_insert_capacity :
    (∀ (p : Program) (i : Insn), p.instruction_count < p.capacity →
      riscv_program_insert p i =
        .ok (ERROR_OK, { p with debug_buffer := p.debug_buffer ++ [i] })) ∧
    (∀ (p : Program) (i : Insn) (r : Int) (p' : Program),
      riscv_program_insert p i = .ok (r, p') →
        p'.instruction_count = p.instruction_count + 1 ∧
        p'.debug_buffer[p.instruction_count]? = some i ∧
        p'.instruction_count ≤ p'.capacity) ∧
    (∀ (p : Program) (i : Insn), p.capacity ≤ p.instruction_count →
      riscv_program_insert p i = .error .insert_overflow) ∧
    (∀ (cap xlen : Nat) (ws : List Insn), ws.length = cap →
      ∃ p', insertList (riscv_program_init cap xlen) ws = .ok p' ∧
        p'.instruction_count = cap) := by
  refine ⟨?_, ?_, ?_, ?_⟩
  · intro p i hlt
    exact (insert_ok_iff p i ERROR_OK _).mpr ⟨hlt, rfl, rfl⟩
  · intro p i r p' h
    obtain ⟨hlt, -, rfl⟩ := (insert_ok_iff p i r p').mp h
    refine ⟨by simp [Program.instruction_count], ?_, ?_⟩
    · simp [Program.instruction_count, List.getElem?_concat_length]
    · show (p.debug_buffer ++ [i]).length ≤ p.capacity
      simp only [Program.instruction_count] at hlt
      simp only [List.length_append, List.length_cons, List.length_nil]
      omega
  · intro p i hge
    exact (insert_error_iff p i .insert_overflow).mpr ⟨hge, rfl⟩
  · intro cap xlen ws hlen
    obtain ⟨p', hrun, hc, -⟩ := insertList_ok ws (riscv_program_init cap xlen)
      (by simp [riscv_program_init, Program.instruction_count, hlen])
    exact ⟨p', hrun, by simpa [riscv_program_init, Program.instruction_count, hlen] using hc⟩

/-- Witness for C5 at concrete inputs: a fresh two-slot program accepts
an `ebreak` (count 0 < capacity 2), and the two-element emission list
`[fence, ebreak]` fills a two-slot buffer exactly. -/
theorem C5_insert_capacity_witness :
    riscv_program_insert (riscv_program_init 2 32) .ebreak =
      .ok (ERROR_OK, { riscv_program_init 2 32 with debug_buffer := [.ebreak] }) ∧
    ∃ p', insertList (riscv_program_init 2 32) [.fence, .ebreak] = .ok p' ∧
      p'.instruction_count = 2 := by
  constructor
  · have := C5_insert_capacity.1 (riscv_program_init 2 32) .ebreak (by decide)
    simpa [riscv_program_init] using this
  · exact C5_insert_capacity.2.2.2 2 32 [.fence, .ebreak] rfl

/-- C6: the Address Splitter's upper immediate is the arithmetic right
shift `addr >> 12` (floor division by 2^12 of the signed address), and
its lower offset is the low-order bitfield `addr & 0x7FF` (that is,
`addr mod 2^11`) for positive addresses and `0` for non-positive
ones. -/
theorem C6_address_splitter (p : Program) (a : Int) :
    riscv_program_gah p a = a >>> (12 : Int) ∧
    riscv_program_gah p a = a / 4096 ∧
    (0 < a → riscv_program_gal p a = Int.land a 2047 ∧ riscv_program_gal p a = a % 2048) ∧
    (a ≤ 0 → riscv_program_gal p a = 0) := by
  refine ⟨rfl, int_shiftRight_twelve a, ?_, ?_⟩
  · intro hpos
    have : riscv_program_gal p a = Int.land a 2047 := by
      unfold riscv_program_gal
      rw [if_pos hpos]
    exact ⟨this, this.trans (int_land_mask a (le_of_lt hpos))⟩
  · intro hnonpos
    unfold riscv_program_gal
    rw [if_neg (by omega)]

/-- Witness for C6 at the address 0x1234 (positive) and -5
(non-positive). -/
theorem C6_address_splitter_witness :
    riscv_program_gal (riscv_program_init 4 32) 4660 = 4660 % 2048 ∧
    riscv_program_gal (riscv_program_init 4 32) (-5) = 0 :=
  ⟨((C6_address_splitter (riscv_program_init 4 32) 4660).2.2.1 (by decide)).2,
   (C6_address_splitter (riscv_program_init 4 32) (-5)).2.2.2 (by decide)⟩

/-- C2 (exhibit of the code-level slip): the register-offset *load*
emitters set `writes_memory`, exactly as the stores do — evaluated on a
fresh program, `riscv_program_lwr`/`lhr`/`lbr` all leave
`writes_memory = true` even though `writes_memory` exists to trigger a
pre-execution fence for programs that wrote memory. -/
theorem C2_load_emitters_set_writes_memory :
    (riscv_program_init 4 32).writes_memory = false ∧
    (∃ p', riscv_program_lwr (riscv_program_init 4 32) 5 6 0 = .ok (ERROR_OK, p') ∧
      p'.writes_memory = true) ∧
    (∃ p', riscv_program_lhr (riscv_program_init 4 32) 5 6 0 = .ok (ERROR_OK, p') ∧
      p'.writes_memory = true) ∧
    (∃ p', riscv_program_lbr (riscv_program_init 4 32) 5 6 0 = .ok (ERROR_OK, p') ∧
      p'.writes_memory = true) :=
  ⟨rfl, ⟨_, rfl, rfl⟩, ⟨_, rfl, rfl⟩, ⟨_, rfl, rfl⟩⟩

/-- C10: `riscv_program_lb` (which passes the computed base `t` to
`riscv_program_lah`) emits exactly what the `ld`/`lw`/`lh` code shape
(which passes the destination `d`) would: when the upper immediate is
non-zero `t = d`, and when it is zero `riscv_program_lah` emits nothing
for any register argument. -/
theorem C10_lb_matches_sibling_shape (p : Program) (d : Nat) (a : Int) :
    riscv_program_lb p d a = riscv_program_lb_sibling p d a := by
  unfold riscv_program_lb riscv_program_lb_sibling
  by_cases hg : riscv_program_gah p a = 0 <;>
    simp [riscv_program_lah, hg]

lemma find?_range'_first {pred : Nat → Bool} :
    ∀ (n s r : Nat), (List.range' s n).find? pred = some r →
      s ≤ r ∧ r < s + n ∧ pred r = true ∧ ∀ j, s ≤ j → j < r → pred j = false := by
  intro n
  induction n with
  | zero =>
    intro s r h
    simp [List.range'] at h
  | succ n ih =>
    intro s r h
    rw [List.range'_succ, List.find?_cons] at h
    by_cases hps : pred s
    · rw [hps] at h
      obtain rfl : s = r := Option.some.inj h
      exact ⟨le_refl s, by omega, hps, fun j h1 h2 => absurd (lt_of_le_of_lt h1 h2) (lt_irrefl s)⟩
    · have hps' : pred s = false := by simpa using hps
      rw [hps'] at h
      obtain ⟨h1, h2, h3, h4⟩ := ih (s + 1) r h
      refine ⟨by omega, by omega, h3, fun j hj1 hj2 => ?_⟩
      rcases Nat.eq_or_lt_of_le hj1 with rfl | hlt
      · exact hps'
      · exact h4 j hlt hj2

lemma gettemp_ok (p : Program) (r : Nat) (p' : Program)
    (h : riscv_program_gettemp p = .ok (r, p')) :
    GDB_REGNO_S0 ≤ r ∧ r ≤ GDB_REGNO_XPR31 ∧ p.in_use r = false ∧
      (∀ j, GDB_REGNO_S0 ≤ j → j < r → p.in_use j = true) ∧
      p' = { p with writes_xreg := setFlag p.writes_xreg r true
                    in_use := setFlag p.in_use r true } := by
  unfold riscv_program_gettemp at h
  cases hf : (List.range' GDB_REGNO_S0 (GDB_REGNO_XPR31 + 1 - GDB_REGNO_S0)).find?
      (fun i => !p.in_use i) with
  | none =>
    rw [hf] at h
    exact absurd h (by simp)
  | some i =>
    rw [hf] at h
    obtain ⟨h1, h2, h3, h4⟩ := find?_range'_first _ _ _ hf
    obtain ⟨hi, hp⟩ := Prod.mk.injEq .. ▸ (Except.ok.inj h)
    subst hi
    refine ⟨h1, by revert h2; unfold GDB_REGNO_S0 GDB_REGNO_XPR31; omega,
      by simpa using h3, fun j hj1 hj2 => by simpa using h4 j hj1 hj2, hp.symm⟩

lemma gettemp_none (p : Program)
    (h : ∀ i, GDB_REGNO_S0 ≤ i → i ≤ GDB_REGNO_XPR31 → p.in_use i = true) :
    riscv_program_gettemp p = .error .temp_exhausted := by
  unfold riscv_program_gettemp
  have hf : (List.range' GDB_REGNO_S0 (GDB_REGNO_XPR31 + 1 - GDB_REGNO_S0)).find?
      (fun i => !p.in_use i) = none := by
    rw [List.find?_eq_none]
    intro a ha
    rw [List.mem_range'_1] at ha
    have := h a ha.1 (by revert ha; unfold GDB_REGNO_S0 GDB_REGNO_XPR31; omega)
    simp [this]
  rw [hf]

/-- C7: `riscv_program_gettemp` scans S0..X31 in ascending order and
returns the first register not `in_use`, marking it `in_use` and
dirtied; it never returns a register that was `in_use`, two
back-to-back allocations return different registers, a
`riscv_program_puttemp` followed by an allocation can hand out the same
register again, and an exhausted pool is fatal. -/
theorem C7_gettemp_allocator :
    (∀ (p : Program) (r : Nat) (p' : Program),
      riscv_program_gettemp p = .ok (r, p') →
        GDB_REGNO_S0 ≤ r ∧ r ≤ GDB_REGNO_XPR31 ∧ p.in_use r = false ∧
        (∀ j, GDB_REGNO_S0 ≤ j → j < r → p.in_use j = true) ∧
        p'.in_use r = true ∧ p'.writes_xreg r = true) ∧
    (∀ (p : Program) (r1 : Nat) (p1 : Program) (r2 : Nat) (p2 : Program),
      riscv_program_gettemp p = .ok (r1, p1) →
      riscv_program_gettemp p1 = .ok (r2, p2) → r1 ≠ r2) ∧
    (∀ p : Program,
      (∀ i, GDB_REGNO_S0 ≤ i → i ≤ GDB_REGNO_XPR31 → p.in_use i = true) →
      riscv_program_gettemp p = .error .temp_exhausted) ∧
    (∃ (p : Program) (r : Nat) (p1 p2 p3 : Program),
      riscv_program_gettemp p = .ok (r, p1) ∧
      riscv_program_puttemp p1 r = .ok p2 ∧
      riscv_program_gettemp p2 = .ok (r, p3)) := by
  refine ⟨?_, ?_, gettemp_none, ?_⟩
  · intro p r p' h
    obtain ⟨h1, h2, h3, h4, rfl⟩ := gettemp_ok p r p' h
    exact ⟨h1, h2, h3, h4, by simp [setFlag], by simp [setFlag]⟩
  · intro p r1 p1 r2 p2 h1 h2
    obtain ⟨-, -, -, -, rfl⟩ := gettemp_ok p r1 p1 h1
    obtain ⟨-, -, hfree, -, -⟩ := gettemp_ok _ r2 p2 h2
    intro heq
    rw [← heq] at hfree
    simp [setFlag] at hfree
  · exact ⟨riscv_program_init 4 32, 8, _, _, _, rfl, rfl, rfl⟩

/-- Witness for C7: on a fresh program the allocator hands out S0 = x8
(marking it in-use and dirtied), a second allocation hands out a
different register, and a fully-occupied pool is fatal. -/
theorem C7_gettemp_allocator_witness :
    (∃ p', riscv_program_gettemp (riscv_program_init 4 32) = .ok (8, p') ∧
      p'.in_use 8 = true ∧ p'.writes_xreg 8 = true) ∧
    riscv_program_gettemp
      { riscv_program_init 4 32 with in_use := fun _ => true } =
      .error .temp_exhausted := by
  constructor
  · have h := C7_gettemp_allocator.1 (riscv_program_init 4 32) 8
      { riscv_program_init 4 32 with
          writes_xreg := setFlag (riscv_program_init 4 32).writes_xreg 8 true
          in_use := setFlag (riscv_program_init 4 32).in_use 8 true } rfl
    exact ⟨_, rfl, h.2.2.2.2.1, h.2.2.2.2.2⟩
  · exact C7_gettemp_allocator.2.2.1 _ (fun i _ _ => rfl)

lemma setFlag_twice (f : Nat → Bool) (i : Nat) (a b : Bool) :
    setFlag (setFlag f i a) i b = setFlag f i b := by
  funext j
  unfold setFlag
  split <;> rfl

lemma gal_congr (p q : Program) (a : Int) :
    riscv_program_gal p a = riscv_program_gal q a := rfl

lemma lah_char (p : Program) (d : Nat) (a : Int) (r : Int) (p' : Program)
    (h : riscv_program_lah p d a = .ok (r, p')) :
    r = ERROR_OK ∧ p'.capacity = p.capacity ∧ p'.target_xlen = p.target_xlen ∧
      p'.in_use = p.in_use ∧ p'.writes_xreg = p.writes_xreg ∧
      p'.writes_memory = p.writes_memory ∧
      ((riscv_program_gah p a = 0 ∧ p'.debug_buffer = p.debug_buffer) ∨
       (riscv_program_gah p a ≠ 0 ∧
        p'.debug_buffer = p.debug_buffer ++ [.lui d (riscv_program_gah p a)])) := by
  unfold riscv_program_lah riscv_program_lui at h
  by_cases hg : riscv_program_gah p a = 0
  · rw [if_pos hg] at h
    obtain ⟨hr, hp⟩ := Prod.mk.injEq .. ▸ (Except.ok.inj h)
    subst hp
    exact ⟨hr.symm, rfl, rfl, rfl, rfl, rfl, Or.inl ⟨hg, rfl⟩⟩
  · rw [if_neg hg] at h
    obtain ⟨-, hr, rfl⟩ := (insert_ok_iff ..).mp h
    exact ⟨hr, rfl, rfl, rfl, rfl, rfl, Or.inr ⟨hg, rfl⟩⟩

lemma lw_char (p : Program) (d : Nat) (a : Int) (r : Int) (p' : Program)
    (h : riscv_program_lw p d a = .ok (r, p')) :
    r = ERROR_OK ∧ p'.capacity = p.capacity ∧ p'.target_xlen = p.target_xlen ∧
      p'.in_use = p.in_use ∧ p'.writes_xreg = p.writes_xreg ∧
      p'.writes_memory = p.writes_memory ∧
      ((riscv_program_gah p a = 0 ∧
        p'.debug_buffer = p.debug_buffer ++ [.lw d GDB_REGNO_X0 (riscv_program_gal p a)]) ∨
       (riscv_program_gah p a ≠ 0 ∧
        p'.debug_buffer = p.debug_buffer ++
          [.lui d (riscv_program_gah p a), .lw d d (riscv_program_gal p a)])) := by
  simp only [riscv_program_lw] at h
  split at h
  · exact absurd h (by simp)
  · next r1 p1 hlah =>
    obtain ⟨hr1, hcap1, hx1, hiu1, hwx1, hwm1, hbuf1⟩ := lah_char p d a r1 p1 hlah
    subst hr1
    rw [if_neg (fun hc => hc rfl)] at h
    split at h
    · exact absurd h (by simp)
    · next r2 p2 hins =>
      obtain ⟨-, hr2, rfl⟩ := (insert_ok_iff ..).mp hins
      subst hr2
      rw [if_neg (fun hc => hc rfl)] at h
      obtain ⟨hr, hp⟩ := Prod.mk.injEq .. ▸ (Except.ok.inj h)
      subst hp
      refine ⟨hr.symm, hcap1, hx1, hiu1, hwx1, hwm1, ?_⟩
      rcases hbuf1 with ⟨hg, hb⟩ | ⟨hg, hb⟩
      · left
        refine ⟨hg, ?_⟩
        show p1.debug_buffer ++ _ = _
        rw [hb, if_pos hg]
        rfl
      · right
        refine ⟨hg, ?_⟩
        show p1.debug_buffer ++ _ = _
        rw [hb, if_neg hg, List.append_assoc]
        rfl

lemma ld_char (p : Program) (d : Nat) (a : Int) (r : Int) (p' : Program)
    (h : riscv_program_ld p d a = .ok (r, p')) :
    r = ERROR_OK ∧ p'.capacity = p.capacity ∧ p'.target_xlen = p.target_xlen ∧
      p'.in_use = p.in_use ∧ p'.writes_xreg = p.writes_xreg ∧
      p'.writes_memory = p.writes_memory ∧
      ((riscv_program_gah p a = 0 ∧
        p'.debug_buffer = p.debug_buffer ++ [.ld d GDB_REGNO_X0 (riscv_program_gal p a)]) ∨
       (riscv_program_gah p a ≠ 0 ∧
        p'.debug_buffer = p.debug_buffer ++
          [.lui d (riscv_program_gah p a), .ld d d (riscv_program_gal p a)])) := by
  simp only [riscv_program_ld] at h
  split at h
  · exact absurd h (by simp)
  · next r1 p1 hlah =>
    obtain ⟨hr1, hcap1, hx1, hiu1, hwx1, hwm1, hbuf1⟩ := lah_char p d a r1 p1 hlah
    subst hr1
    rw [if_neg (fun hc => hc rfl)] at h
    split at h
    · exact absurd h (by simp)
    · next r2 p2 hins =>
      obtain ⟨-, hr2, rfl⟩ := (insert_ok_iff ..).mp hins
      subst hr2
      rw [if_neg (fun hc => hc rfl)] at h
      obtain ⟨hr, hp⟩ := Prod.mk.injEq .. ▸ (Except.ok.inj h)
      subst hp
      refine ⟨hr.symm, hcap1, hx1, hiu1, hwx1, hwm1, ?_⟩
      rcases hbuf1 with ⟨hg, hb⟩ | ⟨hg, hb⟩
      · left
        refine ⟨hg, ?_⟩
        show p1.debug_buffer ++ _ = _
        rw [hb, if_pos hg]
        rfl
      · right
        refine ⟨hg, ?_⟩
        show p1.debug_buffer ++ _ = _
        rw [hb, if_neg hg, List.append_assoc]
        rfl

lemma lh_char (p : Program) (d : Nat) (a : Int) (r : Int) (p' : Program)
    (h : riscv_program_lh p d a = .ok (r, p')) :
    r = ERROR_OK ∧ p'.capacity = p.capacity ∧ p'.target_xlen = p.target_xlen ∧
      p'.in_use = p.in_use ∧ p'.writes_xreg = p.writes_xreg ∧
      p'.writes_memory = p.writes_memory ∧
      ((riscv_program_gah p a = 0 ∧
        p'.debug_buffer = p.debug_buffer ++ [.lh d GDB_REGNO_X0 (riscv_program_gal p a)]) ∨
       (riscv_program_gah p a ≠ 0 ∧
        p'.debug_buffer = p.debug_buffer ++
          [.lui d (riscv_program_gah p a), .lh d d (riscv_program_gal p a)])) := by
  simp only [riscv_program_lh] at h
  split at h
  · exact absurd h (by simp)
  · next r1 p1 hlah =>
    obtain ⟨hr1, hcap1, hx1, hiu1, hwx1, hwm1, hbuf1⟩ := lah_char p d a r1 p1 hlah
    subst hr1
    rw [if_neg (fun hc => hc rfl)] at h
    split at h
    · exact absurd h (by simp)
    · next r2 p2 hins =>
      obtain ⟨-, hr2, rfl⟩ := (insert_ok_iff ..).mp hins
      subst hr2
      rw [if_neg (fun hc => hc rfl)] at h
      obtain ⟨hr, hp⟩ := Prod.mk.injEq .. ▸ (Except.ok.inj h)
      subst hp
      refine ⟨hr.symm, hcap1, hx1, hiu1, hwx1, hwm1, ?_⟩
      rcases hbuf1 with ⟨hg, hb⟩ | ⟨hg, hb⟩
      · left
        refine ⟨hg, ?_⟩
        show p1.debug_buffer ++ _ = _
        rw [hb, if_pos hg]
        rfl
      · right
        refine ⟨hg, ?_⟩
        show p1.debug_buffer ++ _ = _
        rw [hb, if_neg hg, List.append_assoc]
        rfl

lemma lb_char (p : Program) (d : Nat) (a : Int) (r : Int) (p' : Program)
    (h : riscv_program_lb p d a = .ok (r, p')) :
    r = ERROR_OK ∧ p'.capacity = p.capacity ∧ p'.target_xlen = p.target_xlen ∧
      p'.in_use = p.in_use ∧ p'.writes_xreg = p.writes_xreg ∧
      p'.writes_memory = p.writes_memory ∧
      ((riscv_program_gah p a = 0 ∧
        p'.debug_buffer = p.debug_buffer ++ [.lb d GDB_REGNO_X0 (riscv_program_gal p a)]) ∨
       (riscv_program_gah p a ≠ 0 ∧
        p'.debug_buffer = p.debug_buffer ++
          [.lui d (riscv_program_gah p a), .lb d d (riscv_program_gal p a)])) := by
  simp only [riscv_program_lb] at h
  split at h
  · exact absurd h (by simp)
  · next r1 p1 hlah =>
    obtain ⟨hr1, hcap1, hx1, hiu1, hwx1, hwm1, hbuf1⟩ := lah_char p (if riscv_program_gah p a = 0 then GDB_REGNO_X0 else d) a r1 p1 hlah
    subst hr1
    rw [if_neg (fun hc => hc rfl)] at h
    split at h
    · exact absurd h (by simp)
    · next r2 p2 hins =>
      obtain ⟨-, hr2, rfl⟩ := (insert_ok_iff ..).mp hins
      subst hr2
      rw [if_neg (fun hc => hc rfl)] at h
      obtain ⟨hr, hp⟩ := Prod.mk.injEq .. ▸ (Except.ok.inj h)
      subst hp
      refine ⟨hr.symm, hcap1, hx1, hiu1, hwx1, hwm1, ?_⟩
      rcases hbuf1 with ⟨hg, hb⟩ | ⟨hg, hb⟩
      · left
        refine ⟨hg, ?_⟩
        show p1.debug_buffer ++ _ = _
        rw [hb, if_pos hg]
        rfl
      · right
        refine ⟨hg, ?_⟩
        show p1.debug_buffer ++ _ = _
        rw [hb, if_neg hg, List.append_assoc]
        rfl

lemma gah_congr (p q : Program) (a : Int) :
    riscv_program_gah p a = riscv_program_gah q a := rfl

lemma puttemp_ok (p : Program) (t : Nat) (ht : t < RISCV_REGISTER_COUNT) :
    riscv_program_puttemp p t = .ok { p with in_use := setFlag p.in_use t false } := by
  unfold riscv_program_puttemp
  rw [if_pos ht]

lemma sw_char (p : Program) (d : Nat) (a : Int) (r : Int) (p' : Program)
    (h : riscv_program_sw p d a = .ok (r, p')) :
    r = ERROR_OK ∧ p'.capacity = p.capacity ∧ p'.target_xlen = p.target_xlen ∧
      p'.writes_memory = true ∧
      ((riscv_program_gah p a = 0 ∧
        p'.debug_buffer = p.debug_buffer ++ [.sw d GDB_REGNO_X0 (riscv_program_gal p a)] ∧
        p'.in_use = setFlag p.in_use GDB_REGNO_X0 false ∧
        p'.writes_xreg = p.writes_xreg) ∨
       (riscv_program_gah p a ≠ 0 ∧ ∃ t p0,
        riscv_program_gettemp p = .ok (t, p0) ∧
        GDB_REGNO_S0 ≤ t ∧ t ≤ GDB_REGNO_XPR31 ∧ p.in_use t = false ∧
        p'.debug_buffer = p.debug_buffer ++
          [.lui t (riscv_program_gah p a), .sw d t (riscv_program_gal p a)] ∧
        p'.in_use = setFlag p.in_use t false ∧
        p'.writes_xreg = setFlag p.writes_xreg t true)) := by
  simp only [riscv_program_sw] at h
  split at h
  · exact absurd h (by simp)
  · next t p0 heq =>
    have hts : (riscv_program_gah p a = 0 ∧ t = GDB_REGNO_X0 ∧ p0 = p) ∨
        (riscv_program_gah p a ≠ 0 ∧ riscv_program_gettemp p = .ok (t, p0)) := by
      by_cases hg : riscv_program_gah p a = 0
      · rw [if_pos hg] at heq
        obtain ⟨h1, h2⟩ := Prod.mk.injEq .. ▸ (Except.ok.inj heq)
        exact Or.inl ⟨hg, h1.symm, h2.symm⟩
      · rw [if_neg hg] at heq
        exact Or.inr ⟨hg, heq⟩
    have htlt : t < RISCV_REGISTER_COUNT := by
      rcases hts with ⟨-, rfl, -⟩ | ⟨-, hgt⟩
      · unfold GDB_REGNO_X0 RISCV_REGISTER_COUNT
        omega
      · obtain ⟨-, h31, -⟩ := gettemp_ok p t p0 hgt
        unfold GDB_REGNO_XPR31 at h31
        unfold RISCV_REGISTER_COUNT
        omega
    split at h
    · exact absurd h (by simp)
    · next r1 p1 hlah =>
      obtain ⟨hr1, hcap1, hx1, hiu1, hwx1, hwm1, hbuf1⟩ := lah_char p0 t a r1 p1 hlah
      subst hr1
      rw [if_neg (fun hc => hc rfl)] at h
      split at h
      · exact absurd h (by simp)
      · next r2 p2 hins =>
        obtain ⟨-, hr2, rfl⟩ := (insert_ok_iff ..).mp hins
        subst hr2
        rw [if_neg (fun hc => hc rfl)] at h
        split at h
        · next f heqp =>
          rw [puttemp_ok _ t htlt] at heqp
          exact absurd heqp (by simp)
        · next p3 heqp =>
          rw [puttemp_ok _ t htlt] at heqp
          obtain rfl := (Except.ok.inj heqp).symm
          obtain ⟨hr, hp⟩ := Prod.mk.injEq .. ▸ (Except.ok.inj h)
          subst hp
          have hgah0 : riscv_program_gah p0 a = riscv_program_gah p a := rfl
          refine ⟨hr.symm, ?_, ?_, rfl, ?_⟩
          · show p1.capacity = p.capacity
            rcases hts with ⟨-, -, hp0⟩ | ⟨-, hgt⟩
            · rw [hcap1, hp0]
            · obtain ⟨-, -, -, -, hp0⟩ := gettemp_ok p t p0 hgt
              rw [hcap1, hp0]
          · show p1.target_xlen = p.target_xlen
            rcases hts with ⟨-, -, hp0⟩ | ⟨-, hgt⟩
            · rw [hx1, hp0]
            · obtain ⟨-, -, -, -, hp0⟩ := gettemp_ok p t p0 hgt
              rw [hx1, hp0]
          · rcases hts with ⟨hg, rfl, hp0⟩ | ⟨hg, hgt⟩
            · left
              rcases hbuf1 with ⟨-, hb⟩ | ⟨hg1, -⟩
              · refine ⟨hg, ?_, ?_, ?_⟩
                · show p1.debug_buffer ++ _ = _
                  rw [hb, hp0]
                  rfl
                · show setFlag p1.in_use GDB_REGNO_X0 false = _
                  rw [hiu1, hp0]
                · show p1.writes_xreg = _
                  rw [hwx1, hp0]
              · exact absurd (hgah0.trans hg) hg1
            · right
              obtain ⟨h8, h31, hfree, -, hp0⟩ := gettemp_ok p t p0 hgt
              rcases hbuf1 with ⟨hg1, -⟩ | ⟨-, hb⟩
              · exact absurd (hgah0.symm.trans hg1) hg
              · refine ⟨hg, t, p0, hgt, h8, h31, hfree, ?_, ?_, ?_⟩
                · show p1.debug_buffer ++ _ = _
                  rw [hb, hgah0, hp0]
                  show (p.debug_buffer ++ [Insn.lui t (riscv_program_gah p a)]) ++ _ = _
                  rw [List.append_assoc]
                  rfl
                · show setFlag p1.in_use t false = _
                  rw [hiu1, hp0]
                  show setFlag (setFlag p.in_use t true) t false = _
                  rw [setFlag_twice]
                · show p1.writes_xreg = _
                  rw [hwx1, hp0]

lemma sd_char (p : Program) (d : Nat) (a : Int) (r : Int) (p' : Program)
    (h : riscv_program_sd p d a = .ok (r, p')) :
    r = ERROR_OK ∧ p'.capacity = p.capacity ∧ p'.target_xlen = p.target_xlen ∧
      p'.writes_memory = true ∧
      ((riscv_program_gah p a = 0 ∧
        p'.debug_buffer = p.debug_buffer ++ [.sd d GDB_REGNO_X0 (riscv_program_gal p a)] ∧
        p'.in_use = setFlag p.in_use GDB_REGNO_X0 false ∧
        p'.writes_xreg = p.writes_xreg) ∨
       (riscv_program_gah p a ≠ 0 ∧ ∃ t p0,
        riscv_program_gettemp p = .ok (t, p0) ∧
        GDB_REGNO_S0 ≤ t ∧ t ≤ GDB_REGNO_XPR31 ∧ p.in_use t = false ∧
        p'.debug_buffer = p.debug_buffer ++
          [.lui t (riscv_program_gah p a), .sd d t (riscv_program_gal p a)] ∧
        p'.in_use = setFlag p.in_use t false ∧
        p'.writes_xreg = setFlag p.writes_xreg t true)) := by
  simp only [riscv_program_sd] at h
  split at h
  · exact absurd h (by simp)
  · next t p0 heq =>
    have hts : (riscv_program_gah p a = 0 ∧ t = GDB_REGNO_X0 ∧ p0 = p) ∨
        (riscv_program_gah p a ≠ 0 ∧ riscv_program_gettemp p = .ok (t, p0)) := by
      by_cases hg : riscv_program_gah p a = 0
      · rw [if_pos hg] at heq
        obtain ⟨h1, h2⟩ := Prod.mk.injEq .. ▸ (Except.ok.inj heq)
        exact Or.inl ⟨hg, h1.symm, h2.symm⟩
      · rw [if_neg hg] at heq
        exact Or.inr ⟨hg, heq⟩
    have htlt : t < RISCV_REGISTER_COUNT := by
      rcases hts with ⟨-, rfl, -⟩ | ⟨-, hgt⟩
      · unfold GDB_REGNO_X0 RISCV_REGISTER_COUNT
        omega
      · obtain ⟨-, h31, -⟩ := gettemp_ok p t p0 hgt
        unfold GDB_REGNO_XPR31 at h31
        unfold RISCV_REGISTER_COUNT
        omega
    split at h
    · exact absurd h (by simp)
    · next r1 p1 hlah =>
      obtain ⟨hr1, hcap1, hx1, hiu1, hwx1, hwm1, hbuf1⟩ := lah_char p0 t a r1 p1 hlah
      subst hr1
      rw [if_neg (fun hc => hc rfl)] at h
      split at h
      · exact absurd h (by simp)
      · next r2 p2 hins =>
        obtain ⟨-, hr2, rfl⟩ := (insert_ok_iff ..).mp hins
        subst hr2
        rw [if_neg (fun hc => hc rfl)] at h
        split at h
        · next f heqp =>
          rw [puttemp_ok _ t htlt] at heqp
          exact absurd heqp (by simp)
        · next p3 heqp =>
          rw [puttemp_ok _ t htlt] at heqp
          obtain rfl := (Except.ok.inj heqp).symm
          obtain ⟨hr, hp⟩ := Prod.mk.injEq .. ▸ (Except.ok.inj h)
          subst hp
          have hgah0 : riscv_program_gah p0 a = riscv_program_gah p a := rfl
          refine ⟨hr.symm, ?_, ?_, rfl, ?_⟩
          · show p1.capacity = p.capacity
            rcases hts with ⟨-, -, hp0⟩ | ⟨-, hgt⟩
            · rw [hcap1, hp0]
            · obtain ⟨-, -, -, -, hp0⟩ := gettemp_ok p t p0 hgt
              rw [hcap1, hp0]
          · show p1.target_xlen = p.target_xlen
            rcases hts with ⟨-, -, hp0⟩ | ⟨-, hgt⟩
            · rw [hx1, hp0]
            · obtain ⟨-, -, -, -, hp0⟩ := gettemp_ok p t p0 hgt
              rw [hx1, hp0]
          · rcases hts with ⟨hg, rfl, hp0⟩ | ⟨hg, hgt⟩
            · left
              rcases hbuf1 with ⟨-, hb⟩ | ⟨hg1, -⟩
              · refine ⟨hg, ?_, ?_, ?_⟩
                · show p1.debug_buffer ++ _ = _
                  rw [hb, hp0]
                  rfl
                · show setFlag p1.in_use GDB_REGNO_X0 false = _
                  rw [hiu1, hp0]
                · show p1.writes_xreg = _
                  rw [hwx1, hp0]
              · exact absurd (hgah0.trans hg) hg1
            · right
              obtain ⟨h8, h31, hfree, -, hp0⟩ := gettemp_ok p t p0 hgt
              rcases hbuf1 with ⟨hg1, -⟩ | ⟨-, hb⟩
              · exact absurd (hgah0.symm.trans hg1) hg
              · refine ⟨hg, t, p0, hgt, h8, h31, hfree, ?_, ?_, ?_⟩
                · show p1.debug_buffer ++ _ = _
                  rw [hb, hgah0, hp0]
                  show (p.debug_buffer ++ [Insn.lui t (riscv_program_gah p a)]) ++ _ = _
                  rw [List.append_assoc]
                  rfl
                · show setFlag p1.in_use t false = _
                  rw [hiu1, hp0]
                  show setFlag (setFlag p.in_use t true) t false = _
                  rw [setFlag_twice]
                · show p1.writes_xreg = _
                  rw [hwx1, hp0]

lemma sh_char (p : Program) (d : Nat) (a : Int) (r : Int) (p' : Program)
    (h : riscv_program_sh p d a = .ok (r, p')) :
    r = ERROR_OK ∧ p'.capacity = p.capacity ∧ p'.target_xlen = p.target_xlen ∧
      p'.writes_memory = true ∧
      ((riscv_program_gah p a = 0 ∧
        p'.debug_buffer = p.debug_buffer ++ [.sh d GDB_REGNO_X0 (riscv_program_gal p a)] ∧
        p'.in_use = setFlag p.in_use GDB_REGNO_X0 false ∧
        p'.writes_xreg = p.writes_xreg) ∨
       (riscv_program_gah p a ≠ 0 ∧ ∃ t p0,
        riscv_program_gettemp p = .ok (t, p0) ∧
        GDB_REGNO_S0 ≤ t ∧ t ≤ GDB_REGNO_XPR31 ∧ p.in_use t = false ∧
        p'.debug_buffer = p.debug_buffer ++
          [.lui t (riscv_program_gah p a), .sh d t (riscv_program_gal p a)] ∧
        p'.in_use = setFlag p.in_use t false ∧
        p'.writes_xreg = setFlag p.writes_xreg t true)) := by
  simp only [riscv_program_sh] at h
  split at h
  · exact absurd h (by simp)
  · next t p0 heq =>
    have hts : (riscv_program_gah p a = 0 ∧ t = GDB_REGNO_X0 ∧ p0 = p) ∨
        (riscv_program_gah p a ≠ 0 ∧ riscv_program_gettemp p = .ok (t, p0)) := by
      by_cases hg : riscv_program_gah p a = 0
      · rw [if_pos hg] at heq
        obtain ⟨h1, h2⟩ := Prod.mk.injEq .. ▸ (Except.ok.inj heq)
        exact Or.inl ⟨hg, h1.symm, h2.symm⟩
      · rw [if_neg hg] at heq
        exact Or.inr ⟨hg, heq⟩
    have htlt : t < RISCV_REGISTER_COUNT := by
      rcases hts with ⟨-, rfl, -⟩ | ⟨-, hgt⟩
      · unfold GDB_REGNO_X0 RISCV_REGISTER_COUNT
        omega
      · obtain ⟨-, h31, -⟩ := gettemp_ok p t p0 hgt
        unfold GDB_REGNO_XPR31 at h31
        unfold RISCV_REGISTER_COUNT
        omega
    split at h
    · exact absurd h (by simp)
    · next r1 p1 hlah =>
      obtain ⟨hr1, hcap1, hx1, hiu1, hwx1, hwm1, hbuf1⟩ := lah_char p0 t a r1 p1 hlah
      subst hr1
      rw [if_neg (fun hc => hc rfl)] at h
      split at h
      · exact absurd h (by simp)
      · next r2 p2 hins =>
        obtain ⟨-, hr2, rfl⟩ := (insert_ok_iff ..).mp hins
        subst hr2
        rw [if_neg (fun hc => hc rfl)] at h
        split at h
        · next f heqp =>
          rw [puttemp_ok _ t htlt] at heqp
          exact absurd heqp (by simp)
        · next p3 heqp =>
          rw [puttemp_ok _ t htlt] at heqp
          obtain rfl := (Except.ok.inj heqp).symm
          obtain ⟨hr, hp⟩ := Prod.mk.injEq .. ▸ (Except.ok.inj h)
          subst hp
          have hgah0 : riscv_program_gah p0 a = riscv_program_gah p a := rfl
          refine ⟨hr.symm, ?_, ?_, rfl, ?_⟩
          · show p1.capacity = p.capacity
            rcases hts with ⟨-, -, hp0⟩ | ⟨-, hgt⟩
            · rw [hcap1, hp0]
            · obtain ⟨-, -, -, -, hp0⟩ := gettemp_ok p t p0 hgt
              rw [hcap1, hp0]
          · show p1.target_xlen = p.target_xlen
            rcases hts with ⟨-, -, hp0⟩ | ⟨-, hgt⟩
            · rw [hx1, hp0]
            · obtain ⟨-, -, -, -, hp0⟩ := gettemp_ok p t p0 hgt
              rw [hx1, hp0]
          · rcases hts with ⟨hg, rfl, hp0⟩ | ⟨hg, hgt⟩
            · left
              rcases hbuf1 with ⟨-, hb⟩ | ⟨hg1, -⟩
              · refine ⟨hg, ?_, ?_, ?_⟩
                · show p1.debug_buffer ++ _ = _
                  rw [hb, hp0]
                  rfl
                · show setFlag p1.in_use GDB_REGNO_X0 false = _
                  rw [hiu1, hp0]
                · show p1.writes_xreg = _
                  rw [hwx1, hp0]
              · exact absurd (hgah0.trans hg) hg1
            · right
              obtain ⟨h8, h31, hfree, -, hp0⟩ := gettemp_ok p t p0 hgt
              rcases hbuf1 with ⟨hg1, -⟩ | ⟨-, hb⟩
              · exact absurd (hgah0.symm.trans hg1) hg
              · refine ⟨hg, t, p0, hgt, h8, h31, hfree, ?_, ?_, ?_⟩
                · show p1.debug_buffer ++ _ = _
                  rw [hb, hgah0, hp0]
                  show (p.debug_buffer ++ [Insn.lui t (riscv_program_gah p a)]) ++ _ = _
                  rw [List.append_assoc]
                  rfl
                · show setFlag p1.in_use t false = _
                  rw [hiu1, hp0]
                  show setFlag (setFlag p.in_use t true) t false = _
                  rw [setFlag_twice]
                · show p1.writes_xreg = _
                  rw [hwx1, hp0]

lemma sb_char (p : Program) (d : Nat) (a : Int) (r : Int) (p' : Program)
    (h : riscv_program_sb p d a = .ok (r, p')) :
    r = ERROR_OK ∧ p'.capacity = p.capacity ∧ p'.target_xlen = p.target_xlen ∧
      p'.writes_memory = true ∧
      ((riscv_program_gah p a = 0 ∧
        p'.debug_buffer = p.debug_buffer ++ [.sb d GDB_REGNO_X0 (riscv_program_gal p a)] ∧
        p'.in_use = setFlag p.in_use GDB_REGNO_X0 false ∧
        p'.writes_xreg = p.writes_xreg) ∨
       (riscv_program_gah p a ≠ 0 ∧ ∃ t p0,
        riscv_program_gettemp p = .ok (t, p0) ∧
        GDB_REGNO_S0 ≤ t ∧ t ≤ GDB_REGNO_XPR31 ∧ p.in_use t = false ∧
        p'.debug_buffer = p.debug_buffer ++
          [.lui t (riscv_program_gah p a), .sb d t (riscv_program_gal p a)] ∧
        p'.in_use = setFlag p.in_use t false ∧
        p'.writes_xreg = setFlag p.writes_xreg t true)) := by
  simp only [riscv_program_sb] at h
  split at h
  · exact absurd h (by simp)
  · next t p0 heq =>
    have hts : (riscv_program_gah p a = 0 ∧ t = GDB_REGNO_X0 ∧ p0 = p) ∨
        (riscv_program_gah p a ≠ 0 ∧ riscv_program_gettemp p = .ok (t, p0)) := by
      by_cases hg : riscv_program_gah p a = 0
      · rw [if_pos hg] at heq
        obtain ⟨h1, h2⟩ := Prod.mk.injEq .. ▸ (Except.ok.inj heq)
        exact Or.inl ⟨hg, h1.symm, h2.symm⟩
      · rw [if_neg hg] at heq
        exact Or.inr ⟨hg, heq⟩
    have htlt : t < RISCV_REGISTER_COUNT := by
      rcases hts with ⟨-, rfl, -⟩ | ⟨-, hgt⟩
      · unfold GDB_REGNO_X0 RISCV_REGISTER_COUNT
        omega
      · obtain ⟨-, h31, -⟩ := gettemp_ok p t p0 hgt
        unfold GDB_REGNO_XPR31 at h31
        unfold RISCV_REGISTER_COUNT
        omega
    split at h
    · exact absurd h (by simp)
    · next r1 p1 hlah =>
      obtain ⟨hr1, hcap1, hx1, hiu1, hwx1, hwm1, hbuf1⟩ := lah_char p0 t a r1 p1 hlah
      subst hr1
      rw [if_neg (fun hc => hc rfl)] at h
      split at h
      · exact absurd h (by simp)
      · next r2 p2 hins =>
        obtain ⟨-, hr2, rfl⟩ := (insert_ok_iff ..).mp hins
        subst hr2
        rw [if_neg (fun hc => hc rfl)] at h
        split at h
        · next f heqp =>
          rw [puttemp_ok _ t htlt] at heqp
          exact absurd heqp (by simp)
        · next p3 heqp =>
          rw [puttemp_ok _ t htlt] at heqp
          obtain rfl := (Except.ok.inj heqp).symm
          obtain ⟨hr, hp⟩ := Prod.mk.injEq .. ▸ (Except.ok.inj h)
          subst hp
          have hgah0 : riscv_program_gah p0 a = riscv_program_gah p a := rfl
          refine ⟨hr.symm, ?_, ?_, rfl, ?_⟩
          · show p1.capacity = p.capacity
            rcases hts with ⟨-, -, hp0⟩ | ⟨-, hgt⟩
            · rw [hcap1, hp0]
            · obtain ⟨-, -, -, -, hp0⟩ := gettemp_ok p t p0 hgt
              rw [hcap1, hp0]
          · show p1.target_xlen = p.target_xlen
            rcases hts with ⟨-, -, hp0⟩ | ⟨-, hgt⟩
            · rw [hx1, hp0]
            · obtain ⟨-, -, -, -, hp0⟩ := gettemp_ok p t p0 hgt
              rw [hx1, hp0]
          · rcases hts with ⟨hg, rfl, hp0⟩ | ⟨hg, hgt⟩
            · left
              rcases hbuf1 with ⟨-, hb⟩ | ⟨hg1, -⟩
              · refine ⟨hg, ?_, ?_, ?_⟩
                · show p1.debug_buffer ++ _ = _
                  rw [hb, hp0]
                  rfl
                · show setFlag p1.in_use GDB_REGNO_X0 false = _
                  rw [hiu1, hp0]
                · show p1.writes_xreg = _
                  rw [hwx1, hp0]
              · exact absurd (hgah0.trans hg) hg1
            · right
              obtain ⟨h8, h31, hfree, -, hp0⟩ := gettemp_ok p t p0 hgt
              rcases hbuf1 with ⟨hg1, -⟩ | ⟨-, hb⟩
              · exact absurd (hgah0.symm.trans hg1) hg
              · refine ⟨hg, t, p0, hgt, h8, h31, hfree, ?_, ?_, ?_⟩
                · show p1.debug_buffer ++ _ = _
                  rw [hb, hgah0, hp0]
                  show (p.debug_buffer ++ [Insn.lui t (riscv_program_gah p a)]) ++ _ = _
                  rw [List.append_assoc]
                  rfl
                · show setFlag p1.in_use t false = _
                  rw [hiu1, hp0]
                  show setFlag (setFlag p.in_use t true) t false = _
                  rw [setFlag_twice]
                · show p1.writes_xreg = _
                  rw [hwx1, hp0]

/-- C4 counterexample: for address 0x900 the upper immediate is zero
and `riscv_program_lw` emits a single instruction, but its displacement
is `lower(0x900) = 0x900 & 0x7FF = 0x100`, not the raw address 0x900 as
the claim states. -/
theorem C4_counterexample :
    riscv_program_gah (riscv_program_init 4 32) 2304 = 0 ∧
    (∃ p', riscv_program_lw (riscv_program_init 4 32) 5 2304 = .ok (ERROR_OK, p') ∧
      p'.debug_buffer = [Insn.lw 5 GDB_REGNO_X0 256]) ∧
    (256 : Int) ≠ 2304 :=
  ⟨by decide, ⟨_, rfl, rfl⟩, by decide⟩

/-- C4 (amended): each address-relative load/store macro emits, for a
zero upper immediate, exactly one instruction with X0 as base and
`lower(a)` — not the raw address — as displacement; for a non-zero
upper immediate, a `lui` materializing `upper(a)` into the destination
(loads) or a freshly allocated scratch register released after emission
(stores), followed by the base+offset access with `lower(a)` as
displacement. -/
theorem C4_address_macros :
    (∀ (p : Program) (d : Nat) (a : Int) (r : Int) (p' : Program),
      riscv_program_ld p d a = .ok (r, p') →
        (riscv_program_gah p a = 0 →
          p'.debug_buffer = p.debug_buffer ++ [.ld d GDB_REGNO_X0 (riscv_program_gal p a)]) ∧
        (riscv_program_gah p a ≠ 0 →
          p'.debug_buffer = p.debug_buffer ++
            [.lui d (riscv_program_gah p a), .ld d d (riscv_program_gal p a)])) ∧
    (∀ (p : Program) (d : Nat) (a : Int) (r : Int) (p' : Program),
      riscv_program_lw p d a = .ok (r, p') →
        (riscv_program_gah p a = 0 →
          p'.debug_buffer = p.debug_buffer ++ [.lw d GDB_REGNO_X0 (riscv_program_gal p a)]) ∧
        (riscv_program_gah p a ≠ 0 →
          p'.debug_buffer = p.debug_buffer ++
            [.lui d (riscv_program_gah p a), .lw d d (riscv_program_gal p a)])) ∧
    (∀ (p : Program) (d : Nat) (a : Int) (r : Int) (p' : Program),
      riscv_program_lh p d a = .ok (r, p') →
        (riscv_program_gah p a = 0 →
          p'.debug_buffer = p.debug_buffer ++ [.lh d GDB_REGNO_X0 (riscv_program_gal p a)]) ∧
        (riscv_program_gah p a ≠ 0 →
          p'.debug_buffer = p.debug_buffer ++
            [.lui d (riscv_program_gah p a), .lh d d (riscv_program_gal p a)])) ∧
    (∀ (p : Program) (d : Nat) (a : Int) (r : Int) (p' : Program),
      riscv_program_lb p d a = .ok (r, p') →
        (riscv_program_gah p a = 0 →
          p'.debug_buffer = p.debug_buffer ++ [.lb d GDB_REGNO_X0 (riscv_program_gal p a)]) ∧
        (riscv_program_gah p a ≠ 0 →
          p'.debug_buffer = p.debug_buffer ++
            [.lui d (riscv_program_gah p a), .lb d d (riscv_program_gal p a)])) ∧
    (∀ (p : Program) (d : Nat) (a : Int) (r : Int) (p' : Program),
      riscv_program_sd p d a = .ok (r, p') →
        (riscv_program_gah p a = 0 →
          p'.debug_buffer = p.debug_buffer ++ [.sd d GDB_REGNO_X0 (riscv_program_gal p a)]) ∧
        (riscv_program_gah p a ≠ 0 → ∃ t p0,
          riscv_program_gettemp p = .ok (t, p0) ∧
          p'.debug_buffer = p.debug_buffer ++
            [.lui t (riscv_program_gah p a), .sd d t (riscv_program_gal p a)] ∧
          p'.in_use t = false)) ∧
    (∀ (p : Program) (d : Nat) (a : Int) (r : Int) (p' : Program),
      riscv_program_sw p d a = .ok (r, p') →
        (riscv_program_gah p a = 0 →
          p'.debug_buffer = p.debug_buffer ++ [.sw d GDB_REGNO_X0 (riscv_program_gal p a)]) ∧
        (riscv_program_gah p a ≠ 0 → ∃ t p0,
          riscv_program_gettemp p = .ok (t, p0) ∧
          p'.debug_buffer = p.debug_buffer ++
            [.lui t (riscv_program_gah p a), .sw d t (riscv_program_gal p a)] ∧
          p'.in_use t = false)) ∧
    (∀ (p : Program) (d : Nat) (a : Int) (r : Int) (p' : Program),
      riscv_program_sh p d a = .ok (r, p') →
        (riscv_program_gah p a = 0 →
          p'.debug_buffer = p.debug_buffer ++ [.sh d GDB_REGNO_X0 (riscv_program_gal p a)]) ∧
        (riscv_program_gah p a ≠ 0 → ∃ t p0,
          riscv_program_gettemp p = .ok (t, p0) ∧
          p'.debug_buffer = p.debug_buffer ++
            [.lui t (riscv_program_gah p a), .sh d t (riscv_program_gal p a)] ∧
          p'.in_use t = false)) ∧
    (∀ (p : Program) (d : Nat) (a : Int) (r : Int) (p' : Program),
      riscv_program_sb p d a = .ok (r, p') →
        (riscv_program_gah p a = 0 →
          p'.debug_buffer = p.debug_buffer ++ [.sb d GDB_REGNO_X0 (riscv_program_gal p a)]) ∧
        (riscv_program_gah p a ≠ 0 → ∃ t p0,
          riscv_program_gettemp p = .ok (t, p0) ∧
          p'.debug_buffer = p.debug_buffer ++
            [.lui t (riscv_program_gah p a), .sb d t (riscv_program_gal p a)] ∧
          p'.in_use t = false)) := by
  refine ⟨?_, ?_, ?_, ?_, ?_, ?_, ?_, ?_⟩
  · intro p d a r p' h
    obtain ⟨-, -, -, -, -, -, hbuf⟩ := ld_char p d a r p' h
    exact ⟨fun hg => by rcases hbuf with ⟨-, hb⟩ | ⟨hg1, -⟩ <;> first | exact hb | exact absurd hg hg1,
      fun hg => by rcases hbuf with ⟨hg1, -⟩ | ⟨-, hb⟩ <;> first | exact absurd hg1 hg | exact hb⟩
  · intro p d a r p' h
    obtain ⟨-, -, -, -, -, -, hbuf⟩ := lw_char p d a r p' h
    exact ⟨fun hg => by rcases hbuf with ⟨-, hb⟩ | ⟨hg1, -⟩ <;> first | exact hb | exact absurd hg hg1,
      fun hg => by rcases hbuf with ⟨hg1, -⟩ | ⟨-, hb⟩ <;> first | exact absurd hg1 hg | exact hb⟩
  · intro p d a r p' h
    obtain ⟨-, -, -, -, -, -, hbuf⟩ := lh_char p d a r p' h
    exact ⟨fun hg => by rcases hbuf with ⟨-, hb⟩ | ⟨hg1, -⟩ <;> first | exact hb | exact absurd hg hg1,
      fun hg => by rcases hbuf with ⟨hg1, -⟩ | ⟨-, hb⟩ <;> first | exact absurd hg1 hg | exact hb⟩
  · intro p d a r p' h
    obtain ⟨-, -, -, -, -, -, hbuf⟩ := lb_char p d a r p' h
    exact ⟨fun hg => by rcases hbuf with ⟨-, hb⟩ | ⟨hg1, -⟩ <;> first | exact hb | exact absurd hg hg1,
      fun hg => by rcases hbuf with ⟨hg1, -⟩ | ⟨-, hb⟩ <;> first | exact absurd hg1 hg | exact hb⟩
  · intro p d a r p' h
    obtain ⟨-, -, -, -, hbuf⟩ := sd_char p d a r p' h
    constructor
    · intro hg
      rcases hbuf with ⟨-, hb, -, -⟩ | ⟨hg1, -⟩
      · exact hb
      · exact absurd hg hg1
    · intro hg
      rcases hbuf with ⟨hg1, -⟩ | ⟨-, t, p0, hgt, -, -, -, hb, hiu, -⟩
      · exact absurd hg1 hg
      · exact ⟨t, p0, hgt, hb, by rw [hiu]; simp [setFlag]⟩
  · intro p d a r p' h
    obtain ⟨-, -, -, -, hbuf⟩ := sw_char p d a r p' h
    constructor
    · intro hg
      rcases hbuf with ⟨-, hb, -, -⟩ | ⟨hg1, -⟩
      · exact hb
      · exact absurd hg hg1
    · intro hg
      rcases hbuf with ⟨hg1, -⟩ | ⟨-, t, p0, hgt, -, -, -, hb, hiu, -⟩
      · exact absurd hg1 hg
      · exact ⟨t, p0, hgt, hb, by rw [hiu]; simp [setFlag]⟩
  · intro p d a r p' h
    obtain ⟨-, -, -, -, hbuf⟩ := sh_char p d a r p' h
    constructor
    · intro hg
      rcases hbuf with ⟨-, hb, -, -⟩ | ⟨hg1, -⟩
      · exact hb
      · exact absurd hg hg1
    · intro hg
      rcases hbuf with ⟨hg1, -⟩ | ⟨-, t, p0, hgt, -, -, -, hb, hiu, -⟩
      · exact absurd hg1 hg
      · exact ⟨t, p0, hgt, hb, by rw [hiu]; simp [setFlag]⟩
  · intro p d a r p' h
    obtain ⟨-, -, -, -, hbuf⟩ := sb_char p d a r p' h
    constructor
    · intro hg
      rcases hbuf with ⟨-, hb, -, -⟩ | ⟨hg1, -⟩
      · exact hb
      · exact absurd hg hg1
    · intro hg
      rcases hbuf with ⟨hg1, -⟩ | ⟨-, t, p0, hgt, -, -, -, hb, hiu, -⟩
      · exact absurd hg1 hg
      · exact ⟨t, p0, hgt, hb, by rw [hiu]; simp [setFlag]⟩

/-- Witness for C4: the load macro at address 0x900 (upper = 0) emits
one instruction with base X0 and displacement lower(0x900), and the
store macro at 0x2000 (upper = 2) allocates a scratch register, emits
the lui/sw pair, and releases the scratch register. -/
theorem C4_address_macros_witness :
    (∃ p', riscv_program_lw (riscv_program_init 4 32) 5 2304 = .ok (ERROR_OK, p') ∧
      p'.debug_buffer = (riscv_program_init 4 32).debug_buffer ++
        [Insn.lw 5 GDB_REGNO_X0 (riscv_program_gal (riscv_program_init 4 32) 2304)]) ∧
    (∃ q', riscv_program_sw (riscv_program_init 4 32) 5 8192 = .ok (ERROR_OK, q') ∧
      ∃ t p0, riscv_program_gettemp (riscv_program_init 4 32) = .ok (t, p0) ∧
        q'.debug_buffer = (riscv_program_init 4 32).debug_buffer ++
          [Insn.lui t (riscv_program_gah (riscv_program_init 4 32) 8192),
           Insn.sw 5 t (riscv_program_gal (riscv_program_init 4 32) 8192)] ∧
        q'.in_use t = false) := by
  have hlw : riscv_program_lw (riscv_program_init 4 32) 5 2304 =
      .ok (ERROR_OK, { riscv_program_init 4 32 with
        debug_buffer := [Insn.lw 5 GDB_REGNO_X0
          (riscv_program_gal (riscv_program_init 4 32) 2304)] }) := rfl
  have hsw : riscv_program_sw (riscv_program_init 4 32) 5 8192 =
      .ok (ERROR_OK, { riscv_program_init 4 32 with
        debug_buffer := [Insn.lui 8 (riscv_program_gah (riscv_program_init 4 32) 8192),
          Insn.sw 5 8 (riscv_program_gal (riscv_program_init 4 32) 8192)]
        writes_memory := true
        writes_xreg := setFlag (riscv_program_init 4 32).writes_xreg 8 true
        in_use := setFlag (setFlag (riscv_program_init 4 32).in_use 8 true) 8 false }) := rfl
  refine ⟨⟨_, hlw, ?_⟩, ⟨_, hsw, ?_⟩⟩
  · exact (C4_address_macros.2.1 (riscv_program_init 4 32) 5 2304 ERROR_OK _ hlw).1
      (by decide)
  · exact (C4_address_macros.2.2.2.2.2.1 (riscv_program_init 4 32) 5 8192 ERROR_OK _ hsw).2
      (by decide)

lemma inv_insert (p : Program) (i : Insn) (r : Int) (p' : Program)
    (h : riscv_program_insert p i = .ok (r, p')) (hI : InUseDirtied p) : InUseDirtied p' := by
  obtain ⟨-, -, rfl⟩ := (insert_ok_iff ..).mp h
  exact hI

lemma inv_gettemp (p : Program) (t : Nat) (p' : Program)
    (h : riscv_program_gettemp p = .ok (t, p')) (hI : InUseDirtied p) : InUseDirtied p' := by
  obtain ⟨-, -, -, -, rfl⟩ := gettemp_ok p t p' h
  intro j hj
  by_cases hjt : j = t
  · subst hjt
    simp [setFlag]
  · have hj' : p.in_use j = true := by simpa [setFlag, hjt] using hj
    simpa [setFlag, hjt] using hI j hj'

lemma puttemp_char (p : Program) (t : Nat) (p' : Program)
    (h : riscv_program_puttemp p t = .ok p') :
    p' = { p with in_use := setFlag p.in_use t false } := by
  unfold riscv_program_puttemp at h
  split at h
  · exact (Except.ok.inj h).symm
  · exact absurd h (by simp)

lemma inv_puttemp (p : Program) (t : Nat) (p' : Program)
    (h : riscv_program_puttemp p t = .ok p') (hI : InUseDirtied p) : InUseDirtied p' := by
  obtain rfl := puttemp_char p t p' h
  intro j hj
  by_cases hjt : j = t
  · subst hjt
    simp [setFlag] at hj
  · have hj' : p.in_use j = true := by simpa [setFlag, hjt] using hj
    exact hI j hj'

lemma do_restore_char (p : Program) (r : Nat) (rr : Int) (p' : Program)
    (h : riscv_program_do_restore_register p r = .ok (rr, p')) :
    rr = ERROR_OK ∧ p' = { p with writes_xreg := setFlag p.writes_xreg r true } := by
  unfold riscv_program_do_restore_register at h
  split at h
  · obtain ⟨h1, h2⟩ := Prod.mk.injEq .. ▸ (Except.ok.inj h)
    exact ⟨h1.symm, h2.symm⟩
  · exact absurd h (by simp)

lemma inv_do_restore (p : Program) (r : Nat) (rr : Int) (p' : Program)
    (h : riscv_program_do_restore_register p r = .ok (rr, p')) (hI : InUseDirtied p) :
    InUseDirtied p' := by
  obtain ⟨-, rfl⟩ := do_restore_char p r rr p' h
  intro j hj
  have hj' : p.in_use j = true := hj
  by_cases hjr : j = r
  · subst hjr
    simp [setFlag]
  · simpa [setFlag, hjr] using hI j hj'

lemma li_char (p : Program) (d : Nat) (c : Int) (r : Int) (p' : Program)
    (h : riscv_program_li p d c = .ok (r, p')) :
    r = ERROR_OK ∧ p'.in_use = p.in_use ∧ p'.writes_xreg = p.writes_xreg ∧
      p'.writes_memory = p.writes_memory ∧
      p'.debug_buffer = p.debug_buffer ++
        [.lui d (c >>> 12), .addi d d (Int.land c 0xFFF)] := by
  simp only [riscv_program_li, riscv_program_lui, riscv_program_addi] at h
  split at h
  · exact absurd h (by simp)
  · next r1 p1 hins1 =>
    obtain ⟨-, hr1, rfl⟩ := (insert_ok_iff ..).mp hins1
    subst hr1
    rw [if_neg (fun hc => hc rfl)] at h
    split at h
    · exact absurd h (by simp)
    · next r2 p2 hins2 =>
      obtain ⟨-, hr2, rfl⟩ := (insert_ok_iff ..).mp hins2
      subst hr2
      rw [if_neg (fun hc => hc rfl)] at h
      obtain ⟨hr, hp⟩ := Prod.mk.injEq .. ▸ (Except.ok.inj h)
      subst hp
      refine ⟨hr.symm, rfl, rfl, rfl, ?_⟩
      show (p.debug_buffer ++ _) ++ _ = _
      rw [List.append_assoc]
      rfl

lemma ebreak_char (p : Program) (r : Int) (p' : Program)
    (h : riscv_program_ebreak p = .ok (r, p')) :
    r = ERROR_OK ∧ p'.capacity = p.capacity ∧ p'.target_xlen = p.target_xlen ∧
      p'.in_use = p.in_use ∧ p'.writes_xreg = p.writes_xreg ∧
      p'.writes_memory = p.writes_memory ∧
      (p'.debug_buffer = p.debug_buffer ∨
        p'.debug_buffer = p.debug_buffer ++ [.ebreak]) := by
  unfold riscv_program_ebreak at h
  split at h
  · obtain ⟨h1, h2⟩ := Prod.mk.injEq .. ▸ (Except.ok.inj h)
    subst h2
    exact ⟨h1.symm, rfl, rfl, rfl, rfl, rfl, Or.inl rfl⟩
  · obtain ⟨-, hr, rfl⟩ := (insert_ok_iff ..).mp h
    exact ⟨hr, rfl, rfl, rfl, rfl, rfl, Or.inr rfl⟩

/-- C8 counterexample: allocate a scratch register (x8 becomes both
`in_use` and dirtied), then call
`riscv_program_dont_restore_register` on it — the register stays
`in_use` while its dirtied mark is cleared, so the in_use-implies-
dirtied invariant does not survive that operation. -/
theorem C8_counterexample :
    ∃ p1 p2 : Program,
      riscv_program_gettemp (riscv_program_init 4 32) = .ok (8, p1) ∧
      riscv_program_dont_restore_register p1 8 = .ok (ERROR_OK, p2) ∧
      p2.in_use 8 = true ∧ p2.writes_xreg 8 = false ∧ ¬ InUseDirtied p2 := by
  refine ⟨_, _, rfl, rfl, rfl, rfl, fun hI => ?_⟩
  have := hI 8 rfl
  simp [setFlag] at this

/-- C8 (amended): a register `in_use` is also dirtied after
initialization, and the invariant is preserved by scratch allocation,
scratch release, explicit dirty-marking and every embedded emission
operation; `riscv_program_puttemp` clears only `in_use`, leaving the
dirtied mark in place.  The one exception — forced by the
counterexample — is `riscv_program_dont_restore_register`, which
clears the dirtied mark without touching `in_use`. -/
theorem C8_inuse_dirtied_invariant :
    (∀ c x : Nat, InUseDirtied (riscv_program_init c x)) ∧
    (∀ (p : Program) (t : Nat) (p' : Program),
      riscv_program_gettemp p = .ok (t, p') → InUseDirtied p → InUseDirtied p') ∧
    (∀ (p : Program) (t : Nat) (p' : Program),
      riscv_program_puttemp p t = .ok p' →
        (InUseDirtied p → InUseDirtied p') ∧
        p'.writes_xreg = p.writes_xreg ∧ p'.in_use t = false ∧
        (∀ j, j ≠ t → p'.in_use j = p.in_use j)) ∧
    (∀ (p : Program) (rg : Nat) (rr : Int) (p' : Program),
      riscv_program_do_restore_register p rg = .ok (rr, p') →
        InUseDirtied p → InUseDirtied p') ∧
    (∀ (p : Program) (i : Insn) (r : Int) (p' : Program),
      riscv_program_insert p i = .ok (r, p') → InUseDirtied p → InUseDirtied p') ∧
    (∀ (p : Program) (d b : Nat) (off : Int) (r : Int) (p' : Program),
      (riscv_program_swr p d b off = .ok (r, p') ∨ riscv_program_shr p d b off = .ok (r, p') ∨
       riscv_program_sbr p d b off = .ok (r, p') ∨ riscv_program_lwr p d b off = .ok (r, p') ∨
       riscv_program_lhr p d b off = .ok (r, p') ∨ riscv_program_lbr p d b off = .ok (r, p')) →
      InUseDirtied p → InUseDirtied p') ∧
    (∀ (p : Program) (d : Nat) (u : Int) (r : Int) (p' : Program),
      riscv_program_lui p d u = .ok (r, p') → InUseDirtied p → InUseDirtied p') ∧
    (∀ (p : Program) (d s : Nat) (u : Int) (r : Int) (p' : Program),
      riscv_program_addi p d s u = .ok (r, p') → InUseDirtied p → InUseDirtied p') ∧
    (∀ (p : Program) (d : Nat) (c : Int) (r : Int) (p' : Program),
      riscv_program_li p d c = .ok (r, p') → InUseDirtied p → InUseDirtied p') ∧
    (∀ (p : Program) (r : Int) (p' : Program),
      (riscv_program_fence p = .ok (r, p') ∨ riscv_program_fence_i p = .ok (r, p') ∨
       riscv_program_ebreak p = .ok (r, p')) → InUseDirtied p → InUseDirtied p') ∧
    (∀ (p : Program) (d : Nat) (a : Int) (r : Int) (p' : Program),
      (riscv_program_ld p d a = .ok (r, p') ∨ riscv_program_lw p d a = .ok (r, p') ∨
       riscv_program_lh p d a = .ok (r, p') ∨ riscv_program_lb p d a = .ok (r, p') ∨
       riscv_program_lx p d a = .ok (r, p')) → InUseDirtied p → InUseDirtied p') ∧
    (∀ (p : Program) (d : Nat) (a : Int) (r : Int) (p' : Program),
      (riscv_program_sd p d a = .ok (r, p') ∨ riscv_program_sw p d a = .ok (r, p') ∨
       riscv_program_sh p d a = .ok (r, p') ∨ riscv_program_sb p d a = .ok (r, p') ∨
       riscv_program_sx p d a = .ok (r, p')) → InUseDirtied p → InUseDirtied p') := by
  have hload : ∀ (p : Program) (d : Nat) (a : Int) (r : Int) (p' : Program),
      (riscv_program_ld p d a = .ok (r, p') ∨ riscv_program_lw p d a = .ok (r, p') ∨
       riscv_program_lh p d a = .ok (r, p') ∨ riscv_program_lb p d a = .ok (r, p')) →
      InUseDirtied p → InUseDirtied p' := by
    intro p d a r p' h hI
    have hflags : p'.in_use = p.in_use ∧ p'.writes_xreg = p.writes_xreg := by
      rcases h with h | h | h | h
      · obtain ⟨-, -, -, hiu, hwx, -, -⟩ := ld_char p d a r p' h
        exact ⟨hiu, hwx⟩
      · obtain ⟨-, -, -, hiu, hwx, -, -⟩ := lw_char p d a r p' h
        exact ⟨hiu, hwx⟩
      · obtain ⟨-, -, -, hiu, hwx, -, -⟩ := lh_char p d a r p' h
        exact ⟨hiu, hwx⟩
      · obtain ⟨-, -, -, hiu, hwx, -, -⟩ := lb_char p d a r p' h
        exact ⟨hiu, hwx⟩
    intro j hj
    rw [hflags.2]
    exact hI j (hflags.1 ▸ hj)
  have hstoreflags : ∀ (p p' : Program) (t : Nat),
      p'.in_use = setFlag p.in_use t false →
      (p'.writes_xreg = p.writes_xreg ∨ p'.writes_xreg = setFlag p.writes_xreg t true) →
      InUseDirtied p → InUseDirtied p' := by
    intro p p' t hiu hwx hI j hj
    rw [hiu] at hj
    by_cases hjt : j = t
    · subst hjt
      simp [setFlag] at hj
    · have hj' : p.in_use j = true := by simpa [setFlag, hjt] using hj
      rcases hwx with hwx | hwx
      · rw [hwx]
        exact hI j hj'
      · rw [hwx]
        simpa [setFlag, hjt] using hI j hj'
  have hstore : ∀ (p : Program) (d : Nat) (a : Int) (r : Int) (p' : Program),
      (riscv_program_sd p d a = .ok (r, p') ∨ riscv_program_sw p d a = .ok (r, p') ∨
       riscv_program_sh p d a = .ok (r, p') ∨ riscv_program_sb p d a = .ok (r, p')) →
      InUseDirtied p → InUseDirtied p' := by
    intro p d a r p' h hI
    have hflags : ∃ t, p'.in_use = setFlag p.in_use t false ∧
        (p'.writes_xreg = p.writes_xreg ∨ p'.writes_xreg = setFlag p.writes_xreg t true) := by
      rcases h with h | h | h | h
      · obtain ⟨-, -, -, -, hc⟩ := sd_char p d a r p' h
        rcases hc with ⟨-, -, hiu, hwx⟩ | ⟨-, t, p0, -, -, -, -, -, hiu, hwx⟩
        · exact ⟨GDB_REGNO_X0, hiu, Or.inl hwx⟩
        · exact ⟨t, hiu, Or.inr hwx⟩
      · obtain ⟨-, -, -, -, hc⟩ := sw_char p d a r p' h
        rcases hc with ⟨-, -, hiu, hwx⟩ | ⟨-, t, p0, -, -, -, -, -, hiu, hwx⟩
        · exact ⟨GDB_REGNO_X0, hiu, Or.inl hwx⟩
        · exact ⟨t, hiu, Or.inr hwx⟩
      · obtain ⟨-, -, -, -, hc⟩ := sh_char p d a r p' h
        rcases hc with ⟨-, -, hiu, hwx⟩ | ⟨-, t, p0, -, -, -, -, -, hiu, hwx⟩
        · exact ⟨GDB_REGNO_X0, hiu, Or.inl hwx⟩
        · exact ⟨t, hiu, Or.inr hwx⟩
      · obtain ⟨-, -, -, -, hc⟩ := sb_char p d a r p' h
        rcases hc with ⟨-, -, hiu, hwx⟩ | ⟨-, t, p0, -, -, -, -, -, hiu, hwx⟩
        · exact ⟨GDB_REGNO_X0, hiu, Or.inl hwx⟩
        · exact ⟨t, hiu, Or.inr hwx⟩
    obtain ⟨t, hiu, hwx⟩ := hflags
    exact hstoreflags p p' t hiu hwx hI
  refine ⟨?_, ?_, ?_, ?_, ?_, ?_, ?_, ?_, ?_, ?_, ?_, ?_⟩
  · intro c x j hj
    exact absurd hj (by simp [riscv_program_init])
  · intro p t p' h hI
    exact inv_gettemp p t p' h hI
  · intro p t p' h
    obtain rfl := puttemp_char p t p' h
    exact ⟨inv_puttemp p t _ h, rfl, by simp [setFlag], fun j hjt => by simp [setFlag, hjt]⟩
  · intro p rg rr p' h hI
    exact inv_do_restore p rg rr p' h hI
  · intro p i r p' h hI
    exact inv_insert p i r p' h hI
  · intro p d b off r p' h hI
    have : ∃ i, riscv_program_insert { p with writes_memory := true } i = .ok (r, p') := by
      rcases h with h | h | h | h | h | h
      · exact ⟨_, h⟩
      · exact ⟨_, h⟩
      · exact ⟨_, h⟩
      · exact ⟨_, h⟩
      · exact ⟨_, h⟩
      · exact ⟨_, h⟩
    obtain ⟨i, hins⟩ := this
    exact inv_insert _ i r p' hins hI
  · intro p d u r p' h hI
    exact inv_insert _ _ r p' h hI
  · intro p d s u r p' h hI
    exact inv_insert _ _ r p' h hI
  · intro p d c r p' h hI
    obtain ⟨-, hiu, hwx, -, -⟩ := li_char p d c r p' h
    intro j hj
    rw [hwx]
    exact hI j (hiu ▸ hj)
  · intro p r p' h hI
    rcases h with h | h | h
    · exact inv_insert _ _ r p' h hI
    · exact inv_insert _ _ r p' h hI
    · obtain ⟨-, -, -, hiu, hwx, -, -⟩ := ebreak_char p r p' h
      intro j hj
      rw [hwx]
      exact hI j (hiu ▸ hj)
  · intro p d a r p' h hI
    rcases h with h | h | h | h | h
    · exact hload p d a r p' (Or.inl h) hI
    · exact hload p d a r p' (Or.inr (Or.inl h)) hI
    · exact hload p d a r p' (Or.inr (Or.inr (Or.inl h))) hI
    · exact hload p d a r p' (Or.inr (Or.inr (Or.inr h))) hI
    · unfold riscv_program_lx at h
      split at h
      · exact hload p d a r p' (Or.inl h) hI
      · split at h
        · exact hload p d a r p' (Or.inr (Or.inl h)) hI
        · exact absurd h (by simp)
  · intro p d a r p' h hI
    rcases h with h | h | h | h | h
    · exact hstore p d a r p' (Or.inl h) hI
    · exact hstore p d a r p' (Or.inr (Or.inl h)) hI
    · exact hstore p d a r p' (Or.inr (Or.inr (Or.inl h))) hI
    · exact hstore p d a r p' (Or.inr (Or.inr (Or.inr h))) hI
    · unfold riscv_program_sx at h
      split at h
      · exact hstore p d a r p' (Or.inl h) hI
      · split at h
        · exact hstore p d a r p' (Or.inr (Or.inl h)) hI
        · exact absurd h (by simp)

/-- Witness for C8 (amended): on a fresh program the invariant holds,
is preserved through an allocation, and the subsequent release keeps
the dirtied mark of x8 while clearing `in_use`. -/
theorem C8_inuse_dirtied_invariant_witness :
    ∃ p1 : Program, riscv_program_gettemp (riscv_program_init 4 32) = .ok (8, p1) ∧
      InUseDirtied p1 ∧
      ∃ p2 : Program, riscv_program_puttemp p1 8 = .ok p2 ∧
        p2.writes_xreg = p1.writes_xreg ∧ p2.in_use 8 = false := by
  have hI0 : InUseDirtied (riscv_program_init 4 32) :=
    C8_inuse_dirtied_invariant.1 4 32
  refine ⟨_, rfl, C8_inuse_dirtied_invariant.2.1 (riscv_program_init 4 32) 8 _ rfl hI0,
    _, rfl, ?_, ?_⟩
  · exact (C8_inuse_dirtied_invariant.2.2.1 _ 8 _ rfl).2.1
  · exact (C8_inuse_dirtied_invariant.2.2.1 _ 8 _ rfl).2.2.1

lemma ebreak_error_reason (p : Program) (f : Fatal)
    (h : riscv_program_ebreak p = .error f) : f = .insert_overflow := by
  unfold riscv_program_ebreak at h
  split at h
  · exact absurd h (by simp)
  · exact ((insert_error_iff ..).mp h).2

lemma fence_error_reason (p : Program) (f : Fatal)
    (h : riscv_program_fence p = .error f) : f = .insert_overflow := by
  exact ((insert_error_iff ..).mp h).2

lemma exec_ne_ebreak_branch (p : Program) (env : Env) :
    riscv_program_exec p env ≠ .error .ebreak_branch := by
  intro h
  simp only [riscv_program_exec] at h
  split at h
  · next f heqf =>
    have hf : f = .insert_overflow := by
      by_cases hw : p.writes_memory
      · rw [if_pos hw] at heqf
        exact fence_error_reason p f heqf
      · rw [if_neg hw] at heqf
        exact absurd heqf (by simp)
    rw [hf] at h
    exact absurd (Except.error.inj h) (by simp)
  · next rf p1 heqf =>
    have hrf : rf = ERROR_OK := by
      by_cases hw : p.writes_memory
      · rw [if_pos hw] at heqf
        exact (((insert_ok_iff ..).mp heqf).2).1
      · rw [if_neg hw] at heqf
        exact ((Prod.mk.injEq .. ▸ (Except.ok.inj heqf)).1).symm
    subst hrf
    rw [if_neg (fun hc => hc rfl)] at h
    split at h
    · next f heqe =>
      have hf := ebreak_error_reason p1 f heqe
      rw [hf] at h
      exact absurd (Except.error.inj h) (by simp)
    · next re p2 heqe =>
      obtain ⟨hre, -⟩ := ebreak_char p1 re p2 heqe
      subst hre
      rw [if_neg (fun hc => hc rfl)] at h
      split at h
      · exact absurd h (by simp)
      · split at h
        · exact absurd h (by simp)
        · exact absurd h (by simp)

/-- C9: `riscv_program_insert` either aborts on overflow or appends and
returns `ERROR_OK` — it has no failing return; consequently every
emitter only ever returns `ERROR_OK` when it returns at all (each
`ERROR_FAIL` branch guarding an insert is unreachable),
`riscv_program_ebreak` always returns `ERROR_OK`, and the
"Unable to write ebreak" failure branch in `riscv_program_exec` is
dead code. -/
theorem C9_insert_never_fails :
    (∀ (p : Program) (i : Insn),
      riscv_program_insert p i = .error .insert_overflow ∨
      ∃ p', riscv_program_insert p i = .ok (ERROR_OK, p')) ∧
    (∀ (p : Program) (i : Insn), OkOnly (riscv_program_insert p i)) ∧
    (∀ p : Program, OkOnly (riscv_program_ebreak p)) ∧
    (∀ p : Program, (∃ p', riscv_program_ebreak p = .ok (ERROR_OK, p')) ∨
      riscv_program_ebreak p = .error .insert_overflow) ∧
    (∀ (p : Program) (env : Env), riscv_program_exec p env ≠ .error .ebreak_branch) ∧
    (∀ (p : Program) (d : Nat) (a : Int),
      OkOnly (riscv_program_ld p d a) ∧ OkOnly (riscv_program_lw p d a) ∧
      OkOnly (riscv_program_lh p d a) ∧ OkOnly (riscv_program_lb p d a) ∧
      OkOnly (riscv_program_lx p d a) ∧ OkOnly (riscv_program_sd p d a) ∧
      OkOnly (riscv_program_sw p d a) ∧ OkOnly (riscv_program_sh p d a) ∧
      OkOnly (riscv_program_sb p d a) ∧ OkOnly (riscv_program_sx p d a) ∧
      OkOnly (riscv_program_lah p d a) ∧ OkOnly (riscv_program_lal p d a)) ∧
    (∀ (p : Program) (d b : Nat) (off : Int),
      OkOnly (riscv_program_swr p d b off) ∧ OkOnly (riscv_program_shr p d b off) ∧
      OkOnly (riscv_program_sbr p d b off) ∧ OkOnly (riscv_program_lwr p d b off) ∧
      OkOnly (riscv_program_lhr p d b off) ∧ OkOnly (riscv_program_lbr p d b off)) ∧
    (∀ (p : Program) (d s : Nat) (c : Int),
      OkOnly (riscv_program_li p d c) ∧ OkOnly (riscv_program_lui p d c) ∧
      OkOnly (riscv_program_addi p d s c) ∧ OkOnly (riscv_program_fence p) ∧
      OkOnly (riscv_program_fence_i p)) := by
  have hins : ∀ (p : Program) (i : Insn), OkOnly (riscv_program_insert p i) := by
    intro p i r q h
    exact (((insert_ok_iff ..).mp h).2).1
  refine ⟨?_, hins, ?_, ?_, exec_ne_ebreak_branch, ?_, ?_, ?_⟩
  · intro p i
    rcases insert_cases p i with h | h
    · exact Or.inl h
    · exact Or.inr ⟨_, h⟩
  · intro p r q h
    exact (ebreak_char p r q h).1
  · intro p
    cases he : riscv_program_ebreak p with
    | error f =>
      exact Or.inr (by rw [ebreak_error_reason p f he])
    | ok v =>
      obtain ⟨r, q⟩ := v
      obtain ⟨rfl, -⟩ := ebreak_char p r q he
      exact Or.inl ⟨q, rfl⟩
  · intro p d a
    refine ⟨?_, ?_, ?_, ?_, ?_, ?_, ?_, ?_, ?_, ?_, ?_, ?_⟩
    · intro r q h
      exact (ld_char p d a r q h).1
    · intro r q h
      exact (lw_char p d a r q h).1
    · intro r q h
      exact (lh_char p d a r q h).1
    · intro r q h
      exact (lb_char p d a r q h).1
    · intro r q h
      unfold riscv_program_lx at h
      split at h
      · exact (ld_char p d a r q h).1
      · split at h
        · exact (lw_char p d a r q h).1
        · exact absurd h (by simp)
    · intro r q h
      exact (sd_char p d a r q h).1
    · intro r q h
      exact (sw_char p d a r q h).1
    · intro r q h
      exact (sh_char p d a r q h).1
    · intro r q h
      exact (sb_char p d a r q h).1
    · intro r q h
      unfold riscv_program_sx at h
      split at h
      · exact (sd_char p d a r q h).1
      · split at h
        · exact (sw_char p d a r q h).1
        · exact absurd h (by simp)
    · intro r q h
      exact (lah_char p d a r q h).1
    · intro r q h
      unfold riscv_program_lal at h
      split at h
      · exact ((Prod.mk.injEq .. ▸ (Except.ok.inj h)).1).symm
      · exact hins _ _ r q h
  · intro p d b off
    exact ⟨fun r q h => hins _ _ r q h, fun r q h => hins _ _ r q h,
      fun r q h => hins _ _ r q h, fun r q h => hins _ _ r q h,
      fun r q h => hins _ _ r q h, fun r q h => hins _ _ r q h⟩
  · intro p d s c
    refine ⟨?_, fun r q h => hins _ _ r q h, fun r q h => hins _ _ r q h,
      fun r q h => hins _ _ r q h, fun r q h => hins _ _ r q h⟩
    intro r q h
    exact (li_char p d c r q h).1

/-- Witness for C9: applied to a fresh four-slot program, the ebreak
emitter returns `ERROR_OK`, and that program's execution cannot take
the "Unable to write ebreak" branch. -/
theorem C9_insert_never_fails_witness :
    ERROR_OK = ERROR_OK ∧
    riscv_program_exec (riscv_program_init 4 32) env0 ≠ .error .ebreak_branch :=
  ⟨C9_insert_never_fails.2.2.1 (riscv_program_init 4 32) ERROR_OK
      { riscv_program_init 4 32 with debug_buffer := [Insn.ebreak] } rfl,
   C9_insert_never_fails.2.2.2.2.1 (riscv_program_init 4 32) env0⟩

lemma range_filter_ge_nil (n : Nat) :
    (List.range n).filter (fun i => n ≤ i) = [] := by
  rw [List.filter_eq_nil_iff]
  intro a ha
  rw [List.mem_range] at ha
  simpa using Nat.not_le.mpr ha

lemma fenceStep_char (p : Program) (rf : Int) (p1 : Program)
    (h : (if p.writes_memory then riscv_program_fence p
          else .ok (ERROR_OK, p)) = .ok (rf, p1)) :
    rf = ERROR_OK ∧ p1.capacity = p.capacity ∧ p1.writes_xreg = p.writes_xreg ∧
      p1.in_use = p.in_use ∧ ∃ ex, p1.debug_buffer = p.debug_buffer ++ ex := by
  by_cases hw : p.writes_memory
  · rw [if_pos hw] at h
    obtain ⟨-, hr, rfl⟩ := (insert_ok_iff ..).mp h
    exact ⟨hr, rfl, rfl, rfl, [.fence], rfl⟩
  · rw [if_neg hw] at h
    obtain ⟨h1, h2⟩ := Prod.mk.injEq .. ▸ (Except.ok.inj h)
    subst h2
    exact ⟨h1.symm, rfl, rfl, rfl, [], (List.append_nil _).symm⟩

lemma writeLoop_events (env : Env) :
    ∀ (ws : List Insn) (i : Nat), ∀ e ∈ (writeLoop env i ws).2, ∃ j w, e = .write_buf j w := by
  intro ws
  induction ws with
  | nil =>
    intro i e he
    simp [writeLoop] at he
  | cons w ws ih =>
    intro i e he
    unfold writeLoop at he
    by_cases hok : env.write_ok i
    · rw [if_pos hok] at he
      rcases List.mem_cons.mp he with rfl | hmem
      · exact ⟨i, w, rfl⟩
      · exact ih (i + 1) e hmem
    · rw [if_neg hok] at he
      rcases List.mem_cons.mp he with rfl | hmem
      · exact ⟨i, w, rfl⟩
      · simp at hmem

lemma restoreEvents_congr (p q : Program) (env : Env)
    (h : p.writes_xreg = q.writes_xreg) : restoreEvents p env = restoreEvents q env := by
  unfold restoreEvents savedRegisters
  rw [h]

lemma exec_ok_char (p : Program) (env : Env) (p' : Program) (tr : List Event)
    (h : riscv_program_exec p env = .ok (ERROR_OK, p', tr)) :
    p'.writes_xreg = p.writes_xreg ∧
      (∃ ex, p'.debug_buffer = p.debug_buffer ++ ex) ∧
      ∃ wtr, (∀ e ∈ wtr, ∃ j w, e = Event.write_buf j w) ∧
        tr = saveEvents p ++ wtr ++ [Event.exec_buf] ++ restoreEvents p env := by
  simp only [riscv_program_exec] at h
  split at h
  · exact absurd h (by simp)
  · next rf p1 heqf =>
    obtain ⟨hrf, hcap1, hwx1, hiu1, ex1, hbuf1⟩ := fenceStep_char p rf p1 heqf
    subst hrf
    rw [if_neg (fun hc => hc rfl)] at h
    split at h
    · exact absurd h (by simp)
    · next re p2 heqe =>
      obtain ⟨hre, hcap2, -, hiu2, hwx2, -, hbuf2⟩ := ebreak_char p1 re p2 heqe
      subst hre
      rw [if_neg (fun hc => hc rfl)] at h
      split at h
      · next hfail =>
        obtain ⟨hr, -⟩ := Prod.mk.injEq .. ▸ (Except.ok.inj h)
        exact absurd hr (by decide)
      · next hwok =>
        split at h
        · next hexf =>
          obtain ⟨hr, -⟩ := Prod.mk.injEq .. ▸ (Except.ok.inj h)
          exact absurd hr (by decide)
        · next hexok =>
          rw [range_filter_ge_nil p2.capacity] at h
          obtain ⟨-, hrest⟩ := Prod.mk.injEq .. ▸ (Except.ok.inj h)
          obtain ⟨hp', htr⟩ := Prod.mk.injEq .. ▸ hrest
          have hwxp2 : p2.writes_xreg = p.writes_xreg := by
            rw [hwx2, hwx1]
          refine ⟨?_, ?_, ?_⟩
          · rw [← hp']
            show p2.writes_xreg = p.writes_xreg
            exact hwxp2
          · rw [← hp']
            show ∃ ex, p2.debug_buffer = p.debug_buffer ++ ex
            rcases hbuf2 with hb2 | hb2
            · exact ⟨ex1, by rw [hb2, hbuf1]⟩
            · refine ⟨ex1 ++ [Insn.ebreak], ?_⟩
              rw [hb2, hbuf1, List.append_assoc]
          · refine ⟨(riscv_program_write p2 env).2,
              writeLoop_events env p2.debug_buffer 0, ?_⟩
            rw [← htr]
            show saveEvents p ++ (riscv_program_write p2 env).2 ++ [Event.exec_buf] ++
                List.map Event.read_buf [] ++ restoreEvents p2 env = _
            rw [restoreEvents_congr p2 p env hwxp2]
            simp

lemma get_mem_saveEvents (p : Program) (i : Nat) :
    Event.get_reg i ∈ saveEvents p ↔
      (GDB_REGNO_XPR0 + 1 ≤ i ∧ i ≤ GDB_REGNO_XPR31 ∧ p.writes_xreg i = true) := by
  unfold saveEvents GDB_REGNO_XPR0 GDB_REGNO_XPR31
  simp only [List.mem_map, List.mem_filter, List.mem_range'_1]
  constructor
  · rintro ⟨a, ⟨⟨h1, h2⟩, h3⟩, h4⟩
    obtain rfl : a = i := Event.get_reg.inj h4
    exact ⟨h1, by omega, h3⟩
  · rintro ⟨h1, h2, h3⟩
    exact ⟨i, ⟨⟨h1, by omega⟩, h3⟩, rfl⟩

lemma set_not_mem_saveEvents (p : Program) (i : Nat) (v : Int) :
    Event.set_reg i v ∉ saveEvents p := by
  unfold saveEvents
  simp

lemma set_mem_restoreEvents (p : Program) (env : Env) (i : Nat) (v : Int) :
    Event.set_reg i v ∈ restoreEvents p env ↔
      (i ≤ GDB_REGNO_XPR31 ∧ p.writes_xreg i = true ∧ v = savedRegisters p env i) := by
  unfold restoreEvents GDB_REGNO_XPR31
  simp only [List.mem_map, List.mem_filter, List.mem_range]
  constructor
  · rintro ⟨a, ⟨h1, h2⟩, h3⟩
    obtain ⟨rfl, rfl⟩ : a = i ∧ savedRegisters p env a = v := Event.set_reg.inj h3
    exact ⟨by omega, h2, rfl⟩
  · rintro ⟨h1, h2, rfl⟩
    exact ⟨i, ⟨by omega, h2⟩, rfl⟩

lemma get_not_mem_restoreEvents (p : Program) (env : Env) (i : Nat) :
    Event.get_reg i ∉ restoreEvents p env := by
  unfold restoreEvents
  simp

lemma read_not_mem_saveEvents (p : Program) (i : Nat) :
    Event.read_buf i ∉ saveEvents p := by
  unfold saveEvents
  simp

lemma read_not_mem_restoreEvents (p : Program) (env : Env) (i : Nat) :
    Event.read_buf i ∉ restoreEvents p env := by
  unfold restoreEvents
  simp

lemma exec_trace_no_read (p : Program) (env : Env) (r : Int) (p' : Program) (tr : List Event)
    (h : riscv_program_exec p env = .ok (r, p', tr)) :
    (∀ i, Event.read_buf i ∉ tr) ∧ ∃ ex, p'.debug_buffer = p.debug_buffer ++ ex := by
  simp only [riscv_program_exec] at h
  split at h
  · exact absurd h (by simp)
  · next rf p1 heqf =>
    obtain ⟨hrf, hcap1, hwx1, hiu1, ex1, hbuf1⟩ := fenceStep_char p rf p1 heqf
    subst hrf
    rw [if_neg (fun hc => hc rfl)] at h
    split at h
    · exact absurd h (by simp)
    · next re p2 heqe =>
      obtain ⟨hre, hcap2, -, hiu2, hwx2, -, hbuf2⟩ := ebreak_char p1 re p2 heqe
      subst hre
      rw [if_neg (fun hc => hc rfl)] at h
      have hbufp2 : ∃ ex, p2.debug_buffer = p.debug_buffer ++ ex := by
        rcases hbuf2 with hb2 | hb2
        · exact ⟨ex1, by rw [hb2, hbuf1]⟩
        · exact ⟨ex1 ++ [Insn.ebreak], by rw [hb2, hbuf1, List.append_assoc]⟩
      have hwev : ∀ e ∈ (riscv_program_write p2 env).2, ∃ j w, e = Event.write_buf j w :=
        writeLoop_events env p2.debug_buffer 0
      split at h
      · next hfail =>
        obtain ⟨-, hrest⟩ := Prod.mk.injEq .. ▸ (Except.ok.inj h)
        obtain ⟨hp', htr⟩ := Prod.mk.injEq .. ▸ hrest
        refine ⟨?_, hp' ▸ hbufp2⟩
        intro i hmem
        rw [← htr] at hmem
        rcases List.mem_append.mp hmem with hmem | hmem
        · exact read_not_mem_saveEvents p i hmem
        · obtain ⟨j, w, hjw⟩ := hwev _ hmem
          exact Event.noConfusion hjw
      · next hwok =>
        split at h
        · next hexf =>
          obtain ⟨-, hrest⟩ := Prod.mk.injEq .. ▸ (Except.ok.inj h)
          obtain ⟨hp', htr⟩ := Prod.mk.injEq .. ▸ hrest
          refine ⟨?_, hp' ▸ hbufp2⟩
          intro i hmem
          rw [← htr] at hmem
          rcases List.mem_append.mp hmem with hmem | hmem
          · rcases List.mem_append.mp hmem with hmem | hmem
            · exact read_not_mem_saveEvents p i hmem
            · obtain ⟨j, w, hjw⟩ := hwev _ hmem
              exact Event.noConfusion hjw
          · exact Event.noConfusion (List.mem_singleton.mp hmem)
        · next hexok =>
          rw [range_filter_ge_nil p2.capacity] at h
          obtain ⟨-, hrest⟩ := Prod.mk.injEq .. ▸ (Except.ok.inj h)
          obtain ⟨hp', htr⟩ := Prod.mk.injEq .. ▸ hrest
          constructor
          · intro i hmem
            rw [← htr] at hmem
            rcases List.mem_append.mp hmem with hmem | hmem
            · rcases List.mem_append.mp hmem with hmem | hmem
              · rcases List.mem_append.mp hmem with hmem | hmem
                · rcases List.mem_append.mp hmem with hmem | hmem
                  · exact read_not_mem_saveEvents p i hmem
                  · obtain ⟨j, w, hjw⟩ := hwev _ hmem
                    exact Event.noConfusion hjw
                · exact Event.noConfusion (List.mem_singleton.mp hmem)
              · simp at hmem
            · exact read_not_mem_restoreEvents _ env i hmem
          · refine ⟨hbufp2.choose, ?_⟩
            rw [← hp']
            show p2.debug_buffer = p.debug_buffer ++ hbufp2.choose
            exact hbufp2.choose_spec

/-- C1 counterexample: on a program whose only dirtied register is X0
(reachable via `riscv_program_do_restore_register`), execution issues a
register write to X0 from the uninitialized `saved_registers` slot
(value 1 here) although X0 was never snapshotted and its pre-execution
value was 0 — so "restores exactly the dirtied registers to their
snapshotted pre-execution values" fails at X0. -/
theorem C1_counterexample :
    riscv_program_do_restore_register (riscv_program_init 4 32) GDB_REGNO_X0 =
      .ok (ERROR_OK, progX0dirty) ∧
    (∃ p', riscv_program_exec progX0dirty env0 =
      .ok (ERROR_OK, p',
        [Event.write_buf 0 Insn.ebreak, Event.exec_buf, Event.set_reg 0 1])) ∧
    progX0dirty.writes_xreg GDB_REGNO_X0 = true ∧
    env0.get_register 0 = 0 ∧
    Event.get_reg 0 ∉
      ([Event.write_buf 0 Insn.ebreak, Event.exec_buf, Event.set_reg 0 1] : List Event) ∧
    Event.set_reg 0 1 ∈
      ([Event.write_buf 0 Insn.ebreak, Event.exec_buf, Event.set_reg 0 1] : List Event) ∧
    (1 : Int) ≠ 0 :=
  ⟨rfl, ⟨_, rfl⟩, rfl, rfl, by decide, by decide, by decide⟩

/-- C1 (amended): on successful execution the trace is exactly the
snapshot reads of the dirtied registers X1..X31 in ascending order,
then buffer writes and the execution trigger, then register writes of
every dirtied register X0..X31 in ascending order; registers X1..X31
receive their pre-execution values, a never-dirtied register is never
written, X0 is never saved — but a dirtied X0 *is* written during
restore, with the uninitialized `saved_registers[0]` value. -/
theorem C1_register_save_restore (p : Program) (env : Env) (p' : Program) (tr : List Event)
    (h : riscv_program_exec p env = .ok (ERROR_OK, p', tr)) :
    (∃ wtr, (∀ e ∈ wtr, ∃ j w, e = Event.write_buf j w) ∧
      tr = saveEvents p ++ wtr ++ [Event.exec_buf] ++ restoreEvents p env) ∧
    (∀ i, Event.get_reg i ∈ tr ↔
      (GDB_REGNO_XPR0 + 1 ≤ i ∧ i ≤ GDB_REGNO_XPR31 ∧ p.writes_xreg i = true)) ∧
    (∀ i v, Event.set_reg i v ∈ tr ↔
      (i ≤ GDB_REGNO_XPR31 ∧ p.writes_xreg i = true ∧ v = savedRegisters p env i)) ∧
    (∀ i, GDB_REGNO_XPR0 + 1 ≤ i → i ≤ GDB_REGNO_XPR31 → p.writes_xreg i = true →
      savedRegisters p env i = env.get_register i) ∧
    (p.writes_xreg GDB_REGNO_X0 = true →
      savedRegisters p env GDB_REGNO_X0 = env.junk) ∧
    List.Pairwise
      (fun e1 e2 => ∀ i v j w, e1 = Event.set_reg i v → e2 = Event.set_reg j w → i < j)
      (restoreEvents p env) := by
  obtain ⟨-, -, wtr, hw, htr⟩ := exec_ok_char p env p' tr h
  subst htr
  refine ⟨⟨wtr, hw, rfl⟩, ?_, ?_, ?_, ?_, ?_⟩
  · intro i
    constructor
    · intro hmem
      rcases List.mem_append.mp hmem with hmem | hmem
      · rcases List.mem_append.mp hmem with hmem | hmem
        · rcases List.mem_append.mp hmem with hmem | hmem
          · exact (get_mem_saveEvents p i).mp hmem
          · obtain ⟨j, w, hjw⟩ := hw _ hmem
            exact Event.noConfusion hjw
        · exact Event.noConfusion (List.mem_singleton.mp hmem)
      · exact absurd hmem (get_not_mem_restoreEvents p env i)
    · intro hcond
      exact List.mem_append.mpr (Or.inl (List.mem_append.mpr (Or.inl
        (List.mem_append.mpr (Or.inl ((get_mem_saveEvents p i).mpr hcond))))))
  · intro i v
    constructor
    · intro hmem
      rcases List.mem_append.mp hmem with hmem | hmem
      · rcases List.mem_append.mp hmem with hmem | hmem
        · rcases List.mem_append.mp hmem with hmem | hmem
          · exact absurd hmem (set_not_mem_saveEvents p i v)
          · obtain ⟨j, w, hjw⟩ := hw _ hmem
            exact Event.noConfusion hjw
        · exact Event.noConfusion (List.mem_singleton.mp hmem)
      · exact (set_mem_restoreEvents p env i v).mp hmem
    · intro hcond
      exact List.mem_append.mpr (Or.inr ((set_mem_restoreEvents p env i v).mpr hcond))
  · intro i h1 h2 h3
    unfold savedRegisters
    rw [if_pos ⟨h1, h2, h3⟩]
  · intro h0
    unfold savedRegisters GDB_REGNO_X0
    rw [if_neg]
    rintro ⟨hc, -⟩
    unfold GDB_REGNO_XPR0 at hc
    omega
  · unfold restoreEvents
    rw [List.pairwise_map]
    refine List.Pairwise.imp ?_ ((List.pairwise_lt_range _).filter p.writes_xreg)
    intro a b hab i v j w h1 h2
    obtain ⟨rfl, -⟩ := Event.set_reg.inj h1
    obtain ⟨rfl, -⟩ := Event.set_reg.inj h2
    exact hab

/-- Witness for C1 (amended): executing a program whose only dirtied
register is x5 snapshots x5, restores it to its pre-execution value,
never touches x6 during restore and never saves X0. -/
theorem C1_register_save_restore_witness :
    ∃ p' tr, riscv_program_exec progDirty5 env0 = .ok (ERROR_OK, p', tr) ∧
      Event.get_reg 5 ∈ tr ∧
      Event.set_reg 5 (env0.get_register 5) ∈ tr ∧
      (∀ v, Event.set_reg 6 v ∉ tr) ∧
      Event.get_reg 0 ∉ tr := by
  have hex : riscv_program_exec progDirty5 env0 =
      .ok (ERROR_OK, { progDirty5 with debug_buffer := [Insn.ebreak] },
        [Event.get_reg 5, Event.write_buf 0 Insn.ebreak, Event.exec_buf,
          Event.set_reg 5 0]) := rfl
  obtain ⟨-, hget, hset, hd, -, -⟩ :=
    C1_register_save_restore progDirty5 env0 _ _ hex
  refine ⟨_, _, hex, ?_, ?_, ?_, ?_⟩
  · exact (hget 5).mpr ⟨by decide, by decide, rfl⟩
  · exact (hset 5 (env0.get_register 5)).mpr
      ⟨by decide, rfl, (hd 5 (by decide) (by decide) rfl).symm⟩
  · intro v hv
    exact absurd ((hset 6 v).mp hv).2.1 (by decide)
  · intro hv
    have h1 := ((hget 0).mp hv).1
    revert h1
    decide
  
/-- C3 counterexample: on a three-slot target, a successful execution
of an empty program performs one buffer write (the ebreak) and the
execution trigger but not a single `read_debug_buffer` call — the
Program keeps the program as written instead of the target's
post-execution buffer contents. -/
theorem C3_counterexample :
    ∃ p', riscv_program_exec (riscv_program_init 3 32) env0 =
        .ok (ERROR_OK, p', [Event.write_buf 0 Insn.ebreak, Event.exec_buf]) ∧
      (riscv_program_init 3 32).capacity = 3 ∧
      Event.read_buf 0 ∉
        ([Event.write_buf 0 Insn.ebreak, Event.exec_buf] : List Event) ∧
      p'.debug_buffer = [Insn.ebreak] :=
  ⟨_, rfl, rfl, by decide, rfl⟩

/-- C3 (amended): whatever result `riscv_program_exec` returns, its
trace contains no `read_debug_buffer` call — the read-back loop's guard
(slot index at least the buffer size, inside a loop bounded by the
buffer size) never holds — and the Program's `debug_buffer` is only
ever extended (fence/ebreak), never overwritten with target
contents. -/
theorem C3_no_readback (p : Program) (env : Env) (r : Int) (p' : Program) (tr : List Event)
    (h : riscv_program_exec p env = .ok (r, p', tr)) :
    (∀ i, Event.read_buf i ∉ tr) ∧
      ∃ ex, p'.debug_buffer = p.debug_buffer ++ ex :=
  exec_trace_no_read p env r p' tr h

/-- Witness for C3 (amended) at a concrete three-slot program. -/
theorem C3_no_readback_witness :
    ∃ p', riscv_program_exec (riscv_program_init 3 32) env0 =
        .ok (ERROR_OK, p', [Event.write_buf 0 Insn.ebreak, Event.exec_buf]) ∧
      (∀ i, Event.read_buf i ∉
        ([Event.write_buf 0 Insn.ebreak, Event.exec_buf] : List Event)) ∧
      ∃ ex, p'.debug_buffer = (riscv_program_init 3 32).debug_buffer ++ ex := by
  have hex : riscv_program_exec (riscv_program_init 3 32) env0 =
      .ok (ERROR_OK, { riscv_program_init 3 32 with debug_buffer := [Insn.ebreak] },
        [Event.write_buf 0 Insn.ebreak, Event.exec_buf]) := rfl
  obtain ⟨h1, h2⟩ := C3_no_readback (riscv_program_init 3 32) env0 ERROR_OK _ _ hex
  exact ⟨_, hex, h1, h2⟩

end RiscvProgram
